import Mathlib

/-!
Verification development for the group-conversation orchestration core of the
blyrin-bot repository.

Shallow embedding: the TypeScript modules are translated into pure Lean
functions over explicit state.  The per-group mutable state kept in module
level Maps (keyed by groupId) is modelled as the state of a single group:
every operation of the source first looks up (or lazily creates) the entry of
one groupId and then reads/writes only that entry, so the projection to a
single key is observationally faithful.  Wall-clock values (Date.now) are
passed in as explicit parameters where the source stores them and ignored
where they influence nothing that is claimed.

Modules embedded below:
 - group-queue            (processing lock, bounded FIFO, preemption)
 - message-aggregator     (per-group cooldown window)
 - response-decider       (shouldReply)
 - context/index          (checkAndCompress)
 - ai/index               (mergeConsecutiveMessages, handleToolCallsLoop)
 - bot/index              (handleGroupMessage decision branch, processReply)
-/

namespace BlyrinBot

/- ============================================================
   Shared event/message data model (src/shared/types, and the local
   GroupMessageEvent interfaces of the bot modules).
   Message segments are projected to the fields the embedded functions
   read: the segment type tag, the data.qq field of at-segments and the
   data.text field of text segments.
   ============================================================ -/

structure MessageSegment where
  type : String
  dataQQ : Option String := none
  dataText : Option String := none
  deriving Repr, DecidableEq

structure GroupMessageEvent where
  message_id : Nat
  group_id : Nat
  user_id : Nat
  message : List MessageSegment := []
  deriving Repr, DecidableEq

/- ============================================================
   group-queue module
   (群级消息队列管理模块: processing lock, bounded queue, preemption)
   ============================================================ -/

structure QueuedMessage where
  event : GroupMessageEvent
  addedAt : Nat
  deriving Repr, DecidableEq

/-- An AbortController is modelled by its only observable bit: whether
abort() has been called on it. -/
structure AbortController where
  aborted : Bool
  deriving Repr, DecidableEq

structure GroupQueueState where
  processing : Bool
  currentUserId : Option Nat
  abortController : Option AbortController
  queue : List QueuedMessage
  deriving Repr, DecidableEq

def MAX_QUEUE_SIZE : Nat := 10

/-- The state getOrCreateState installs for a fresh groupId. -/
def initialQueueState : GroupQueueState :=
  { processing := false, currentUserId := none, abortController := none, queue := [] }

def isGroupProcessing (s : GroupQueueState) : Bool := s.processing

def getCurrentProcessingUserId (s : GroupQueueState) : Option Nat := s.currentUserId

/-- enqueueMessage: when the queue is already at capacity the oldest entry is
shifted off before the new one is pushed. -/
def enqueueMessage (s : GroupQueueState) (event : GroupMessageEvent) (now : Nat) :
    GroupQueueState :=
  let q := if s.queue.length ≥ MAX_QUEUE_SIZE then s.queue.drop 1 else s.queue
  { s with queue := q ++ [{ event := event, addedAt := now }] }

/-- startProcessing: marks the group busy, records the acting user and installs
a fresh (un-aborted) AbortController. -/
def startProcessing (s : GroupQueueState) (userId : Nat) : GroupQueueState :=
  { s with processing := true
         , currentUserId := some userId
         , abortController := some { aborted := false } }

/-- abortCurrentProcessing: no-op unless the group is processing; aborts the
current controller but clears none of the fields and leaves the queue alone. -/
def abortCurrentProcessing (s : GroupQueueState) : GroupQueueState :=
  if s.processing = false then s
  else
    match s.abortController with
    | some c => { s with abortController := some { c with aborted := true } }
    | none => s

/-- finishProcessing: clears busy/user/controller and shifts the queue head
(if any), returning it for hand-off. -/
def finishProcessing (s : GroupQueueState) : GroupQueueState × Option QueuedMessage :=
  let cleared : GroupQueueState :=
    { s with processing := false, currentUserId := none, abortController := none }
  match cleared.queue with
  | [] => (cleared, none)
  | m :: rest => ({ cleared with queue := rest }, some m)

/-- clearGroupQueue: aborts the controller (observable only on the dropped
handle) and resets every field. -/
def clearGroupQueue (_s : GroupQueueState) : GroupQueueState := initialQueueState

/-- The operations the rest of the program can perform on one group entry of
the module-level map. -/
inductive QueueOp where
  | enqueue (event : GroupMessageEvent) (now : Nat)
  | start (userId : Nat)
  | abortCur
  | finish
  | clear
  deriving Repr, DecidableEq

def applyQueueOp (s : GroupQueueState) : QueueOp → GroupQueueState
  | .enqueue e t => enqueueMessage s e t
  | .start u => startProcessing s u
  | .abortCur => abortCurrentProcessing s
  | .finish => (finishProcessing s).1
  | .clear => clearGroupQueue s

def runQueueOps (s : GroupQueueState) (ops : List QueueOp) : GroupQueueState :=
  ops.foldl applyQueueOp s

/-- Reachable states of one group entry: everything obtainable from the fresh
entry by any sequence of module operations. -/
def QueueReachable (s : GroupQueueState) : Prop :=
  ∃ ops : List QueueOp, s = runQueueOps initialQueueState ops

/-- The consistency invariant of C1: processing, currentUserId and
abortController are all unset together or all set together, and the queue
never exceeds its capacity. -/
def queueInvariant (s : GroupQueueState) : Prop :=
  ((s.processing = false ∧ s.currentUserId = none ∧ s.abortController = none) ∨
   (s.processing = true ∧ s.currentUserId ≠ none ∧ s.abortController ≠ none)) ∧
  s.queue.length ≤ MAX_QUEUE_SIZE

/- ============================================================
   message-aggregator module (per-group cooldown window).
   The pendingReplies map is projected to one group.  Each created window
   carries a ghost identifier (a counter) so that handler invocations can be
   attributed to the window that produced them; the identifier changes
   nothing observable.  The setTimeout timer of a window is represented by
   the fire operation being applicable only while the window is present in
   the map (clearTimeout plus delete make a cancelled window unfireable, and
   a fired timer never fires again because the callback deletes the entry
   before invoking the handler).
   ============================================================ -/

structure PendingReply where
  triggerEvent : GroupMessageEvent
  aggregatedEvents : List GroupMessageEvent
  cooldownMs : Nat
  processing : Bool
  deriving Repr, DecidableEq

/-- Observable happenings of the aggregator, tagged with the ghost window id. -/
inductive AgAction where
  | created (id : Nat) (event : GroupMessageEvent)
  | appended (id : Nat) (event : GroupMessageEvent)
  | invoked (id : Nat) (anchor : GroupMessageEvent) (observed : List GroupMessageEvent)
  | cancelled (id : Nat)
  deriving Repr, DecidableEq

structure AgState where
  window : Option (PendingReply × Nat)
  counter : Nat
  log : List AgAction
  deriving Repr, DecidableEq

def agInitial : AgState := { window := none, counter := 0, log := [] }

/-- scheduleReply: existing window => append to aggregatedEvents and return
false (the timer is untouched); no window => create one anchored on the event
with a fresh timer and return true. -/
def scheduleReply (s : AgState) (event : GroupMessageEvent) (cooldownMs : Nat) :
    AgState × Bool :=
  match s.window with
  | some (p, i) =>
    ({ s with window := some ({ p with aggregatedEvents := p.aggregatedEvents ++ [event] }, i)
            , log := s.log ++ [.appended i event] }, false)
  | none =>
    let fresh : PendingReply :=
      { triggerEvent := event, aggregatedEvents := [], cooldownMs := cooldownMs
      , processing := false }
    ({ s with window := some (fresh, s.counter)
            , counter := s.counter + 1
            , log := s.log ++ [.created s.counter event] }, true)

/-- The timer callback: if the window was cancelled (map entry gone) or is
already marked processing, do nothing; otherwise mark it processing, remove it
and invoke the handler with the anchor event and the aggregated list. -/
def agFire (s : AgState) : AgState :=
  match s.window with
  | none => s
  | some (p, i) =>
    if p.processing then s
    else { s with window := none
                , log := s.log ++ [.invoked i p.triggerEvent p.aggregatedEvents] }

/-- cancelPendingReply: clearTimeout plus delete, without invoking the handler. -/
def cancelPendingReply (s : AgState) : AgState × Bool :=
  match s.window with
  | some (_, i) => ({ s with window := none, log := s.log ++ [.cancelled i] }, true)
  | none => (s, false)

def isGroupInCooldown (s : AgState) : Bool := s.window.isSome

inductive AgOp where
  | schedule (event : GroupMessageEvent) (cooldownMs : Nat)
  | fire
  | cancel
  deriving Repr, DecidableEq

def applyAgOp (s : AgState) : AgOp → AgState
  | .schedule e cd => (scheduleReply s e cd).1
  | .fire => agFire s
  | .cancel => (cancelPendingReply s).1

def runAgOps (ops : List AgOp) : AgState := ops.foldl applyAgOp agInitial

def countInvoked (log : List AgAction) (id : Nat) : Nat :=
  log.countP fun a => match a with
    | .invoked i _ _ => i = id
    | _ => false

def countCancelled (log : List AgAction) (id : Nat) : Nat :=
  log.countP fun a => match a with
    | .cancelled i => i = id
    | _ => false

/-- The events appended to window id, in log order. -/
def appendsFor (log : List AgAction) (id : Nat) : List GroupMessageEvent :=
  log.filterMap fun a => match a with
    | .appended i e => if i = id then some e else none
    | _ => none

/-- Inductive invariant of the aggregator transition system. -/
def agInv (s : AgState) : Prop :=
  (∀ p i, s.window = some (p, i) →
      i < s.counter ∧ countInvoked s.log i = 0 ∧ countCancelled s.log i = 0 ∧
      (AgAction.created i p.triggerEvent) ∈ s.log ∧
      p.aggregatedEvents = appendsFor s.log i ∧ p.processing = false) ∧
  (∀ id, s.counter ≤ id →
      countInvoked s.log id = 0 ∧ countCancelled s.log id = 0 ∧
      appendsFor s.log id = [] ∧ ∀ e, (AgAction.created id e) ∉ s.log) ∧
  (∀ id, countInvoked s.log id + countCancelled s.log id ≤ 1) ∧
  (∀ id a obs, (AgAction.invoked id a obs) ∈ s.log →
      (AgAction.created id a) ∈ s.log ∧ obs = appendsFor s.log id)

/- ============================================================
   response-decider module: shouldReply.
   Math.random() is passed in as the parameter rand (a rational in [0,1)).
   GroupSettings carries the fields shouldReply reads.
   ============================================================ -/

structure GroupSettings where
  enabled : Bool
  randomReplyProbability : ℚ
  mustReplyOnAt : Bool
  mustReplyOnQuote : Bool
  aggregationCooldown : Option Nat := none
  deriving Repr, DecidableEq

/-- shouldReply, with the Math.random() draw supplied as rand. -/
def shouldReply (event : GroupMessageEvent) (groupSettings : GroupSettings)
    (selfId : Nat) (rand : ℚ) : Bool × String :=
  let atSegments := event.message.filter fun seg =>
    seg.type = "at" ∧ seg.dataQQ = some (toString selfId)
  if atSegments.length > 0 ∧ groupSettings.mustReplyOnAt then (true, "at")
  else
    let replySegments := event.message.filter fun seg => seg.type = "reply"
    if replySegments.length > 0 ∧ groupSettings.mustReplyOnQuote then (true, "quote")
    else if groupSettings.randomReplyProbability > 0 ∧
        rand < groupSettings.randomReplyProbability then (true, "random")
    else (false, "none")

/-- Whether the event at-mentions the bot (the condition of rule 1). -/
def mentionsBot (event : GroupMessageEvent) (selfId : Nat) : Prop :=
  ∃ seg ∈ event.message, seg.type = "at" ∧ seg.dataQQ = some (toString selfId)

/-- Whether the event carries a quote (reply) segment (the condition of rule 2). -/
def hasQuote (event : GroupMessageEvent) : Prop :=
  ∃ seg ∈ event.message, seg.type = "reply"

instance (event : GroupMessageEvent) (selfId : Nat) :
    Decidable (mentionsBot event selfId) := by
  unfold mentionsBot; infer_instance

instance (event : GroupMessageEvent) : Decidable (hasQuote event) := by
  unfold hasQuote; infer_instance

/- ============================================================
   context module: checkAndCompress.
   The durable store (getContext / saveContext / getMemory / saveMemory) is
   an explicit ContextStore.  Outcomes of the fallible collaborators are
   supplied in a CompressEnv: the summarization model call either throws or
   returns a summary string, and each of the two forward persistence writes
   either succeeds or throws.  A save that throws leaves the durable store
   unchanged.  The rollback writes in the catch block are taken to succeed
   (a failing rollback write would propagate the exception and is outside
   the claims considered here); deleteMessageImages is best-effort and does
   not touch the store.
   ============================================================ -/

structure OpenAIToolCall where
  id : String
  name : String
  arguments : String
  deriving Repr, DecidableEq

/-- shared ChatMessage: the persisted conversation unit.  The ai module also
stores tool transcript entries of this shape, carrying tool_calls (assistant
tool-call turns, content null) or tool_call_id (tool result turns). -/
structure ChatMessage where
  role : String
  content : Option String := none
  messageId : Option Nat := none
  userId : Option Nat := none
  timestamp : Option Nat := none
  tool_calls : List OpenAIToolCall := []
  tool_call_id : Option String := none
  deriving Repr, DecidableEq

structure GroupMemory where
  groupId : Nat
  summary : String
  lastCompressed : Nat
  deriving Repr, DecidableEq

structure ContextStore where
  groupId : Nat
  messages : List ChatMessage
  lastUpdated : Nat
  memory : Option GroupMemory
  deriving Repr, DecidableEq

structure CompressEnv where
  compressionThreshold : Nat
  maxMessages : Nat
  summaryResult : Except Unit String
  saveMemoryOk : Bool
  saveContextOk : Bool
  now : Nat
  deriving Repr

/-- JavaScript slice(0, -k) on a list (k = 0 yields the empty list since
slice(0, -0) is slice(0, 0)). -/
def jsSliceToNeg (l : List ChatMessage) (k : Nat) : List ChatMessage :=
  if k = 0 then [] else l.take (l.length - k)

/-- JavaScript slice(-k) on a list (k = 0 yields the whole list since
slice(-0) is slice(0)). -/
def jsSliceFromNeg (l : List ChatMessage) (k : Nat) : List ChatMessage :=
  if k = 0 then l else l.drop (l.length - k)

/-- The rollback of the catch block: restore the backed-up context verbatim
and re-save the pre-compression memory when one existed (when none existed
nothing restores the memory field). -/
def compressRollback (store : ContextStore) (cur : ContextStore) : ContextStore :=
  { cur with messages := store.messages
           , lastUpdated := store.lastUpdated
           , memory := (match store.memory with
                        | some m => some m
                        | none => cur.memory) }

/-- checkAndCompress as a function of the store and the collaborator
outcomes; returns the resulting store and the boolean result. -/
def checkAndCompress (store : ContextStore) (env : CompressEnv) :
    ContextStore × Bool :=
  if store.messages.length < env.compressionThreshold then (store, false)
  else
    let keepCount := env.maxMessages / 3
    let toCompress := jsSliceToNeg store.messages keepCount
    let toKeep := jsSliceFromNeg store.messages keepCount
    if toCompress.length = 0 then (store, false)
    else
      match env.summaryResult with
      | .error _ => (compressRollback store store, false)
      | .ok summary =>
        let newSummary :=
          match store.memory with
          | some m => m.summary ++ "\n\n---\n\n" ++ summary
          | none => summary
        if env.saveMemoryOk = false then (compressRollback store store, false)
        else
          let newMemory : GroupMemory :=
            { groupId := store.groupId, summary := newSummary
            , lastCompressed := env.now }
          let store1 := { store with memory := some newMemory }
          if env.saveContextOk = false then (compressRollback store store1, false)
          else ({ store1 with messages := toKeep, lastUpdated := env.now }, true)

/- ============================================================
   ai module part 1: mergeConsecutiveMessages.
   OpenAIToolCall flattens the nested function object into name and
   arguments.  Message content is either null, a plain string, or a list of
   content parts; a part carries its type tag and its text (empty string for
   parts without text, matching JS truthiness checks).
   ============================================================ -/

inductive Role where
  | user | assistant | system | tool
  deriving Repr, DecidableEq

structure ContentPart where
  type : String
  text : String := ""
  deriving Repr, DecidableEq

inductive MsgContent where
  | null
  | str (s : String)
  | parts (l : List ContentPart)
  deriving Repr, DecidableEq

structure OpenAIMessage where
  role : Role
  content : MsgContent
  name : Option String := none
  tool_calls : List OpenAIToolCall := []
  tool_call_id : Option String := none
  deriving Repr, DecidableEq

def contentToText : MsgContent → String
  | .null => ""
  | .str s => s
  | .parts l =>
    String.intercalate "\n"
      ((l.filter fun c => c.type = "text" ∧ c.text ≠ "").map ContentPart.text)

/-- The first pass of mergeConsecutiveMessages: the reduce that merges
consecutive user messages and consecutive assistant messages (the latter only
when the earlier one carries no tool calls). -/
def mergeStep (result : List OpenAIMessage) (msg : OpenAIMessage) :
    List OpenAIMessage :=
  match result.getLast? with
  | none => result ++ [msg]
  | some last =>
    if last.role = .user ∧ msg.role = .user then
      result.dropLast ++
        [{ last with
             content := .str (contentToText last.content ++ "\n" ++ contentToText msg.content)
           , name := none }]
    else if last.role = .assistant ∧ msg.role = .assistant ∧ last.tool_calls.length = 0 then
      let lastContent := contentToText last.content
      let msgContent := contentToText msg.content
      let newContent :=
        if lastContent ≠ "" ∨ msgContent ≠ "" then
          MsgContent.str (String.intercalate "\n" ([lastContent, msgContent].filter fun x => x ≠ ""))
        else last.content
      let newToolCalls :=
        if msg.tool_calls.length > 0 then msg.tool_calls else last.tool_calls
      result.dropLast ++ [{ last with content := newContent, tool_calls := newToolCalls }]
    else result ++ [msg]

def mergePass (messages : List OpenAIMessage) : List OpenAIMessage :=
  messages.foldl mergeStep []

/-- Insertion into the pendingToolCallIds set (JS Set: add is idempotent). -/
def pendingAdd (pending : List String) (toolCalls : List OpenAIToolCall) : List String :=
  toolCalls.foldl (fun p tc => if tc.id ∈ p then p else p ++ [tc.id]) pending

/-- The second pass: drop tool messages without a matching unanswered
assistant tool call, and on a non-tool message arriving while calls are
unanswered, drop the immediately preceding assistant tool-call message. -/
def filterStep (acc : List OpenAIMessage × List String) (msg : OpenAIMessage) :
    List OpenAIMessage × List String :=
  let valid := acc.1
  let pending := acc.2
  if msg.role = .assistant ∧ msg.tool_calls.length > 0 then
    (valid ++ [msg], pendingAdd pending msg.tool_calls)
  else if msg.role = .tool then
    match msg.tool_call_id with
    | some id =>
      if id ≠ "" ∧ id ∈ pending then (valid ++ [msg], pending.erase id)
      else (valid, pending)
    | none => (valid, pending)
  else
    if pending.length > 0 then
      match valid.getLast? with
      | some last =>
        if last.role = .assistant ∧ last.tool_calls.length > 0 then
          (valid.dropLast ++ [msg], [])
        else (valid ++ [msg], [])
      | none => (valid ++ [msg], [])
    else (valid ++ [msg], pending)

/-- The final fix-up: a trailing assistant message with still-unanswered tool
calls is removed. -/
def dropTrailingUnanswered (valid : List OpenAIMessage) (pending : List String) :
    List OpenAIMessage :=
  if pending.length > 0 then
    match valid.getLast? with
    | some last =>
      if last.role = .assistant ∧ last.tool_calls.length > 0 then valid.dropLast
      else valid
    | none => valid
  else valid

def mergeConsecutiveMessages (messages : List OpenAIMessage) : List OpenAIMessage :=
  let merged := mergePass messages
  let acc := merged.foldl filterStep ([], [])
  dropTrailingUnanswered acc.1 acc.2

/- Independent checkers used to state properties of the normalized output.
They scan a message list from the left, carrying the multiset of requested
but not yet answered tool-call ids. -/

/-- scanAvail returns the remaining unanswered ids, or none as soon as a tool
message does not answer a previously requested, not yet consumed id. -/
def scanAvail : List String → List OpenAIMessage → Option (List String)
  | avail, [] => some avail
  | avail, m :: rest =>
    if m.role = .assistant then
      scanAvail (avail ++ m.tool_calls.map OpenAIToolCall.id) rest
    else if m.role = .tool then
      match m.tool_call_id with
      | some id => if id ∈ avail then scanAvail (avail.erase id) rest else none
      | none => none
    else scanAvail avail rest

/-- Every tool turn of the list answers a tool call requested by an earlier
assistant turn and not already consumed by an earlier tool turn. -/
def NoOrphanTool (messages : List OpenAIMessage) : Prop :=
  (scanAvail [] messages).isSome

/-- A pair of adjacent turns the merge pass is required to have merged:
two user turns, or two assistant turns of which the earlier has no tool
calls. -/
def mergeablePair (a b : OpenAIMessage) : Prop :=
  (a.role = .user ∧ b.role = .user) ∨
  (a.role = .assistant ∧ a.tool_calls = [] ∧ b.role = .assistant)

instance (a b : OpenAIMessage) : Decidable (mergeablePair a b) := by
  unfold mergeablePair; infer_instance

/-- Decidable checker for an assistant turn one of whose tool calls is never
answered by any later tool turn. -/
def hasUnansweredAssistant (messages : List OpenAIMessage) : Bool :=
  (List.range messages.length).any fun i =>
    match messages.get? i with
    | some m =>
      m.role = .assistant ∧ m.tool_calls.any fun tc =>
        ¬ (messages.drop (i + 1)).any fun m2 =>
            m2.role = .tool ∧ m2.tool_call_id = some tc.id
    | none => false

/-- Invariant of the second (filter) pass: the pending set is duplicate-free
and the messages accepted so far scan without orphan tools, the pending ids
all being among the still-available requested ids. -/
def filterInv (acc : List OpenAIMessage × List String) : Prop :=
  acc.2.Nodup ∧ ∃ avail, scanAvail [] acc.1 = some avail ∧ ∀ id ∈ acc.2, id ∈ avail

/-- The summary string of an optional memory (empty when absent). -/
def memorySummaryOf : Option GroupMemory → String
  | some m => m.summary
  | none => ""

def isJsSpace (c : Char) : Bool :=
  c = ' ' ∨ c = '\n' ∨ c = '\t' ∨ c = '\r'

/-- JavaScript String.prototype.trim: strip leading and trailing
whitespace. -/
def jsTrim (s : String) : String :=
  String.mk (((s.data.dropWhile isJsSpace).reverse.dropWhile isJsSpace).reverse)

/- ============================================================
   ai module part 2: handleToolCallsLoop.
   The model provider is scripted: each model call consumes the head of a
   response script (a run needing more calls than the script supplies ends
   in the outOfScript marker, about which nothing is claimed).  The external
   tool execution service is the function execTool, mapping a requested call
   to the JSON string of its result (JSON parsing of the arguments, which
   never fails the round, is folded into it).  The cooperative cancellation
   signal is modelled by numbering the abort-status observation points of a
   run consecutively (tick); abortAfter n means the signal is observed
   aborted from observation n onward, matching a one-way abort flag.  At the
   two observation points belonging to callOpenAI (its entry check and the
   fetch itself) an observed abort raises the interruption error instead of
   returning, exactly as the source throws there. -/

structure ModelResponse where
  content : String
  toolCalls : List OpenAIToolCall := []
  deriving Repr, DecidableEq

structure LoopEnv where
  execTool : OpenAIToolCall → String
  abortAfter : Option Nat
  hasIntermediate : Bool
  now : Nat

def checkAbort (abortAfter : Option Nat) (tick : Nat) : Bool :=
  match abortAfter with
  | some n => n ≤ tick
  | none => false

inductive LoopOutcome where
  | result (content : String) (toolMessages : List ChatMessage) (aborted : Bool)
  | interrupted
  | outOfScript
  deriving Repr, DecidableEq

/-- The for-loop over the requested tool calls of one round: before each
execution the abort signal is polled; on abort the accumulated transcript is
returned with aborted = true. -/
def execToolsLoop (env : LoopEnv) :
    List OpenAIToolCall → List ChatMessage → List OpenAIMessage → Nat →
    (List ChatMessage × List OpenAIMessage × Nat) ⊕ List ChatMessage
  | [], tms, msgs, tick => .inl (tms, msgs, tick)
  | tc :: rest, tms, msgs, tick =>
    if checkAbort env.abortAfter tick then .inr tms
    else
      let resultStr := env.execTool tc
      let toolMsg : ChatMessage :=
        { role := "tool", content := some resultStr, tool_call_id := some tc.id
        , timestamp := some env.now }
      let oaTool : OpenAIMessage :=
        { role := .tool, content := .str resultStr, tool_call_id := some tc.id }
      execToolsLoop env rest (tms ++ [toolMsg]) (msgs ++ [oaTool]) (tick + 1)

/-- The unbounded tool-call loop.  Arguments: current requested tool calls,
model response script, accumulated toolMessages transcript, the running
request message list, and the abort observation counter. -/
def handleToolCallsLoop (env : LoopEnv) :
    List OpenAIToolCall → List ModelResponse → List ChatMessage →
    List OpenAIMessage → Nat → LoopOutcome
  | currentToolCalls, script, tms, msgs, tick =>
    if currentToolCalls.length = 0 then .result "" tms false
    else if checkAbort env.abortAfter tick then .result "" tms true
    else
      let asstMsg : ChatMessage :=
        { role := "assistant", content := none, tool_calls := currentToolCalls
        , timestamp := some env.now }
      let oaAsst : OpenAIMessage :=
        { role := .assistant, content := .null, tool_calls := currentToolCalls }
      match execToolsLoop env currentToolCalls (tms ++ [asstMsg]) (msgs ++ [oaAsst])
          (tick + 1) with
      | .inr tms2 => .result "" tms2 true
      | .inl (tms2, msgs2, tick2) =>
        if checkAbort env.abortAfter tick2 then .result "" tms2 true
        else if checkAbort env.abortAfter (tick2 + 1) then .interrupted
        else
          match script with
          | [] => .outOfScript
          | r :: rest =>
            if checkAbort env.abortAfter (tick2 + 2) then .interrupted
            else
              let trimmed := jsTrim r.content
              let intermediate :=
                env.hasIntermediate ∧ trimmed ≠ "" ∧ r.toolCalls.length > 0
              let tms3 :=
                if intermediate then
                  tms2 ++ [{ role := "assistant", content := some trimmed
                           , timestamp := some env.now }]
                else tms2
              let msgs3 :=
                if intermediate then
                  msgs2 ++ [{ role := .assistant, content := .str trimmed }]
                else msgs2
              if r.toolCalls.length > 0 then
                handleToolCallsLoop env r.toolCalls rest tms3 msgs3 (tick2 + 3)
              else .result r.content tms3 false

/- ============================================================
   bot module: the persistence tail of processReply, and the orchestration
   step relation of handleGroupMessage plus the async completions.
   ============================================================ -/

/-- Outcome of the awaited chat call inside processReply, as the try block
observes it. -/
inductive ChatOutcome where
  | ok (content : String) (toolMessages : List ChatMessage) (aborted : Bool)
  | interrupted
  | failed
  deriving Repr, DecidableEq

/-- The tail of processReply after the chat call returns: the abort check,
persistence of the tool transcript, the empty-reply check, the send, and the
finally block releasing the lock and popping the next queued message.
The platform client is taken to be connected and its send to succeed; the
message id the platform assigns to the sent reply is not modelled. -/
def processReplyPersist (outcome : ChatOutcome) (signalAborted : Bool)
    (history : List ChatMessage) (gq : GroupQueueState) (now : Nat) :
    List ChatMessage × Option String × GroupQueueState × Option QueuedMessage :=
  match outcome with
  | .interrupted =>
    let fin := finishProcessing gq
    (history, none, fin.1, fin.2)
  | .failed =>
    let fin := finishProcessing gq
    (history, none, fin.1, fin.2)
  | .ok content toolMessages aborted =>
    let fin := finishProcessing gq
    if aborted ∨ signalAborted then (history, none, fin.1, fin.2)
    else
      let h1 := history ++ toolMessages
      let reply := jsTrim content
      if reply = "" then (h1, none, fin.1, fin.2)
      else
        let botMessage : ChatMessage :=
          { role := "assistant", content := some reply, timestamp := some now }
        (h1 ++ [botMessage], some reply, fin.1, fin.2)

/-- Orchestrator-level actions, recorded so that call-discipline properties
can be read off a run. -/
inductive OrchAction where
  | start (userId : Nat)
  | finish
  | abortCur
  | enqueued (userId : Nat)
  | windowCreated (messageId : Nat)
  deriving Repr, DecidableEq

/-- State of one group under the orchestrator: the group-queue entry, the
aggregator window (represented by its anchor event: handleGroupMessage
returns before scheduleReply whenever a window exists, so the observed list
of a window stays empty on these paths), the setImmediate hand-off callbacks
scheduled by the finally block of processReply and not yet run, and the
processReply activations that have run startProcessing and not yet reached
their finally block. -/
structure OrchState where
  gq : GroupQueueState
  window : Option GroupMessageEvent
  pendingDrains : List GroupMessageEvent
  inflight : List GroupMessageEvent
  log : List OrchAction
  deriving Repr, DecidableEq

structure OrchCfg where
  cooldownMs : Nat
  deriving Repr, DecidableEq

def orchInitial : OrchState :=
  { gq := initialQueueState, window := none, pendingDrains := [], inflight := []
  , log := [] }

/-- The synchronous decision segment of handleGroupMessage for an event that
passed the whitelist/enabled checks, with the ResponseDecider verdict
supplied as wantsReply (it draws randomness). -/
def orchArrive (cfg : OrchCfg) (s : OrchState) (e : GroupMessageEvent)
    (wantsReply : Bool) (now : Nat) : OrchState :=
  if s.window.isSome then s
  else if wantsReply = false then s
  else if s.gq.processing then
    if s.gq.currentUserId = some e.user_id then
      { s with gq := abortCurrentProcessing s.gq, log := s.log ++ [.abortCur] }
    else
      { s with gq := enqueueMessage s.gq e now, log := s.log ++ [.enqueued e.user_id] }
  else if cfg.cooldownMs > 0 then
    { s with window := some e, log := s.log ++ [.windowCreated e.message_id] }
  else
    { s with gq := startProcessing s.gq e.user_id, inflight := s.inflight ++ [e]
           , log := s.log ++ [.start e.user_id] }

/-- Expiry of the aggregation window timer: the callback removes the window
and enters processReply for the anchor event, which begins with
startProcessing; no check of the processing flag guards this path. -/
def orchTimerFire (s : OrchState) : OrchState :=
  match s.window with
  | none => s
  | some e =>
    { s with window := none, gq := startProcessing s.gq e.user_id
           , inflight := s.inflight ++ [e], log := s.log ++ [.start e.user_id] }

/-- The finally block of one in-flight processReply activation: release the
lock and, when the queue hands off a next message, schedule its processing
through setImmediate. -/
def orchComplete (s : OrchState) (e : GroupMessageEvent) : OrchState :=
  if e ∈ s.inflight then
    let fin := finishProcessing s.gq
    { s with gq := fin.1
           , inflight := s.inflight.erase e
           , pendingDrains := s.pendingDrains ++
               (match fin.2 with | some m => [m.event] | none => [])
           , log := s.log ++ [.finish] }
  else s

/-- A scheduled setImmediate callback runs: processReply for the handed-off
event, beginning with startProcessing. -/
def orchDrainRun (s : OrchState) : OrchState :=
  match s.pendingDrains with
  | [] => s
  | e :: rest =>
    { s with pendingDrains := rest, gq := startProcessing s.gq e.user_id
           , inflight := s.inflight ++ [e], log := s.log ++ [.start e.user_id] }

inductive OrchStep where
  | arrive (e : GroupMessageEvent) (wantsReply : Bool) (now : Nat)
  | timerFire
  | complete (e : GroupMessageEvent)
  | drainRun
  deriving Repr, DecidableEq

def applyOrchStep (cfg : OrchCfg) (s : OrchState) : OrchStep → OrchState
  | .arrive e w now => orchArrive cfg s e w now
  | .timerFire => orchTimerFire s
  | .complete e => orchComplete s e
  | .drainRun => orchDrainRun s

def runOrch (cfg : OrchCfg) (steps : List OrchStep) : OrchState :=
  steps.foldl (applyOrchStep cfg) orchInitial

/-- Whether, somewhere after this point of the log, a start action occurs
before any finish action. -/
def startBeforeFinish : List OrchAction → Bool
  | [] => false
  | .finish :: _ => false
  | .start _ :: _ => true
  | _ :: rest => startBeforeFinish rest

/-- Whether the log contains two start actions with no finish between them,
i.e. startProcessing invoked for an already processing group without an
intervening finishProcessing. -/
def hasDoubleStart : List OrchAction → Bool
  | [] => false
  | .start _ :: rest => startBeforeFinish rest || hasDoubleStart rest
  | _ :: rest => hasDoubleStart rest

/- ============================================================
   THEOREMS
   ============================================================ -/

theorem queueInvariant_initial : queueInvariant initialQueueState := by
  constructor
  · left; exact ⟨rfl, rfl, rfl⟩
  · simp [initialQueueState, MAX_QUEUE_SIZE]

theorem queueInvariant_step (s : GroupQueueState) (op : QueueOp)
    (h : queueInvariant s) : queueInvariant (applyQueueOp s op) := by
  obtain ⟨hfields, hlen⟩ := h
  cases op with
  | enqueue e t =>
    constructor
    · simpa [applyQueueOp, enqueueMessage] using hfields
    · simp only [applyQueueOp, enqueueMessage, List.length_append, List.length_cons,
        List.length_nil]
      by_cases hq : s.queue.length ≥ MAX_QUEUE_SIZE
      · simp only [hq, if_pos, List.length_drop]
        simp only [MAX_QUEUE_SIZE] at hq hlen ⊢
        omega
      · simp only [hq, if_neg, not_false_iff]
        simp only [MAX_QUEUE_SIZE] at hq hlen ⊢
        omega
  | start u =>
    constructor
    · right
      refine ⟨rfl, ?_, ?_⟩ <;> simp [applyQueueOp, startProcessing]
    · simpa [applyQueueOp, startProcessing] using hlen
  | abortCur =>
    by_cases hp : s.processing = false
    · simpa [applyQueueOp, abortCurrentProcessing, hp] using ⟨hfields, hlen⟩
    · cases hac : s.abortController with
      | none => simpa [applyQueueOp, abortCurrentProcessing, hp, hac] using ⟨hfields, hlen⟩
      | some c =>
        constructor
        · right
          constructor
          · simp [applyQueueOp, abortCurrentProcessing, hp, hac]
          constructor
          · rcases hfields with ⟨hf, _, _⟩ | ⟨_, hu, _⟩
            · exact absurd hf hp
            · simpa [applyQueueOp, abortCurrentProcessing, hp, hac] using hu
          · simp [applyQueueOp, abortCurrentProcessing, hp, hac]
        · simpa [applyQueueOp, abortCurrentProcessing, hp, hac] using hlen
  | finish =>
    constructor
    · left
      cases hq : s.queue with
      | nil => simp [applyQueueOp, finishProcessing, hq]
      | cons m rest => simp [applyQueueOp, finishProcessing, hq]
    · cases hq : s.queue with
      | nil => simp [applyQueueOp, finishProcessing, hq, MAX_QUEUE_SIZE]
      | cons m rest =>
        simp only [applyQueueOp, finishProcessing, hq]
        rw [hq] at hlen
        simp only [List.length_cons] at hlen
        simpa using Nat.le_of_succ_le (Nat.lt_succ_of_le hlen)
  | clear =>
    simpa [applyQueueOp, clearGroupQueue] using queueInvariant_initial

theorem queueInvariant_reachable (s : GroupQueueState) (h : QueueReachable s) :
    queueInvariant s := by
  obtain ⟨ops, rfl⟩ := h
  induction ops using List.reverseRecOn with
  | nil => exact queueInvariant_initial
  | append_singleton ops op ih =>
    rw [runQueueOps, List.foldl_append]
    exact queueInvariant_step _ op ih

theorem agInv_initial : agInv agInitial := by
  refine ⟨?_, ?_, ?_, ?_⟩ <;> simp [agInitial, countInvoked, countCancelled, appendsFor]

theorem countInvoked_append (log : List AgAction) (a : AgAction) (id : Nat) :
    countInvoked (log ++ [a]) id = countInvoked log id + countInvoked [a] id := by
  simp [countInvoked, List.countP_append]

theorem countCancelled_append (log : List AgAction) (a : AgAction) (id : Nat) :
    countCancelled (log ++ [a]) id = countCancelled log id + countCancelled [a] id := by
  simp [countCancelled, List.countP_append]

theorem appendsFor_append (log : List AgAction) (a : AgAction) (id : Nat) :
    appendsFor (log ++ [a]) id = appendsFor log id ++ appendsFor [a] id := by
  simp [appendsFor]

theorem countInvoked_singleton_created (i id : Nat) (e : GroupMessageEvent) :
    countInvoked [AgAction.created i e] id = 0 := by
  simp [countInvoked, List.countP_cons]

theorem countInvoked_singleton_appended (i id : Nat) (e : GroupMessageEvent) :
    countInvoked [AgAction.appended i e] id = 0 := by
  simp [countInvoked, List.countP_cons]

theorem countInvoked_singleton_cancelled (i id : Nat) :
    countInvoked [AgAction.cancelled i] id = 0 := by
  simp [countInvoked, List.countP_cons]

theorem countInvoked_singleton_invoked (i id : Nat) (a : GroupMessageEvent)
    (obs : List GroupMessageEvent) :
    countInvoked [AgAction.invoked i a obs] id = if i = id then 1 else 0 := by
  by_cases h : i = id <;> simp [countInvoked, List.countP_cons, h]

theorem countCancelled_singleton_created (i id : Nat) (e : GroupMessageEvent) :
    countCancelled [AgAction.created i e] id = 0 := by
  simp [countCancelled, List.countP_cons]

theorem countCancelled_singleton_appended (i id : Nat) (e : GroupMessageEvent) :
    countCancelled [AgAction.appended i e] id = 0 := by
  simp [countCancelled, List.countP_cons]

theorem countCancelled_singleton_invoked (i id : Nat) (a : GroupMessageEvent)
    (obs : List GroupMessageEvent) :
    countCancelled [AgAction.invoked i a obs] id = 0 := by
  simp [countCancelled, List.countP_cons]

theorem countCancelled_singleton_cancelled (i id : Nat) :
    countCancelled [AgAction.cancelled i] id = if i = id then 1 else 0 := by
  by_cases h : i = id <;> simp [countCancelled, List.countP_cons, h]

theorem appendsFor_singleton_created (i id : Nat) (e : GroupMessageEvent) :
    appendsFor [AgAction.created i e] id = [] := by
  simp [appendsFor]

theorem appendsFor_singleton_invoked (i id : Nat) (a : GroupMessageEvent)
    (obs : List GroupMessageEvent) :
    appendsFor [AgAction.invoked i a obs] id = [] := by
  simp [appendsFor]

theorem appendsFor_singleton_cancelled (i id : Nat) :
    appendsFor [AgAction.cancelled i] id = [] := by
  simp [appendsFor]

theorem appendsFor_singleton_appended (i id : Nat) (e : GroupMessageEvent) :
    appendsFor [AgAction.appended i e] id = if i = id then [e] else [] := by
  by_cases h : i = id <;> simp [appendsFor, h]

theorem countInvoked_pos_of_mem (log : List AgAction) (id : Nat)
    (a : GroupMessageEvent) (obs : List GroupMessageEvent)
    (h : (AgAction.invoked id a obs) ∈ log) : 0 < countInvoked log id := by
  rw [countInvoked, List.countP_pos_iff]
  exact ⟨_, h, by simp⟩

theorem agInv_step (s : AgState) (op : AgOp) (h : agInv s) : agInv (applyAgOp s op) := by
  obtain ⟨h1, h2, h3, h4⟩ := h
  cases op with
  | schedule e cd =>
    simp only [applyAgOp]
    cases hw : s.window with
    | some pi =>
      obtain ⟨p, i⟩ := pi
      obtain ⟨hlt, hinv0, hcan0, hcre, hagg, hproc⟩ := h1 p i hw
      refine ⟨?_, ?_, ?_, ?_⟩
      · intro q j hq
        simp only [scheduleReply, hw] at hq
        rw [Option.some_inj, Prod.mk.injEq] at hq
        obtain ⟨hq1, hq2⟩ := hq
        subst hq2
        refine ⟨?_, ?_, ?_, ?_, ?_, ?_⟩
        · simpa [scheduleReply, hw] using hlt
        · simp [scheduleReply, hw, countInvoked_append, countInvoked_singleton_appended,
            hinv0]
        · simp [scheduleReply, hw, countCancelled_append, countCancelled_singleton_appended,
            hcan0]
        · rw [← hq1]
          simp only [scheduleReply, hw]
          exact List.mem_append_left _ hcre
        · rw [← hq1]
          simp [scheduleReply, hw, appendsFor_append, appendsFor_singleton_appended, hagg]
        · rw [← hq1]
          simpa using hproc
      · intro id hid
        simp only [scheduleReply, hw] at hid ⊢
        obtain ⟨c1, c2, c3, c4⟩ := h2 id hid
        have hne : i ≠ id := by omega
        refine ⟨?_, ?_, ?_, ?_⟩
        · simp [countInvoked_append, countInvoked_singleton_appended, c1]
        · simp [countCancelled_append, countCancelled_singleton_appended, c2]
        · simp [appendsFor_append, appendsFor_singleton_appended, c3, hne]
        · intro e0
          simp only [List.mem_append, List.mem_singleton]
          rintro (hmem | hmem)
          · exact c4 e0 hmem
          · exact absurd hmem (by simp)
      · intro id
        simp only [scheduleReply, hw]
        simpa [countInvoked_append, countInvoked_singleton_appended,
          countCancelled_append, countCancelled_singleton_appended] using h3 id
      · intro id a obs hmem
        simp only [scheduleReply, hw] at hmem ⊢
        rw [List.mem_append, List.mem_singleton] at hmem
        rcases hmem with hmem | hmem
        · obtain ⟨hc, ho⟩ := h4 id a obs hmem
          have hne : i ≠ id := by
            intro heq
            subst heq
            have := countInvoked_pos_of_mem s.log i a obs hmem
            omega
          refine ⟨List.mem_append_left _ hc, ?_⟩
          simp [appendsFor_append, appendsFor_singleton_appended, hne, ho]
        · exact absurd hmem (by simp)
    | none =>
      refine ⟨?_, ?_, ?_, ?_⟩
      · intro q j hq
        simp only [scheduleReply, hw] at hq
        rw [Option.some_inj, Prod.mk.injEq] at hq
        obtain ⟨hq1, hq2⟩ := hq
        obtain ⟨c1, c2, c3, c4⟩ := h2 s.counter (le_refl _)
        refine ⟨?_, ?_, ?_, ?_, ?_, ?_⟩
        · rw [← hq2]; simp [scheduleReply, hw]
        · rw [← hq2]
          simp [scheduleReply, hw, countInvoked_append, countInvoked_singleton_created, c1]
        · rw [← hq2]
          simp [scheduleReply, hw, countCancelled_append, countCancelled_singleton_created,
            c2]
        · rw [← hq1, ← hq2]
          simp only [scheduleReply, hw]
          exact List.mem_append_right _ (by simp)
        · rw [← hq1, ← hq2]
          simp [scheduleReply, hw, appendsFor_append, appendsFor_singleton_created, c3]
        · rw [← hq1]
      · intro id hid
        simp only [scheduleReply, hw] at hid ⊢
        have hid0 : s.counter ≤ id := by omega
        obtain ⟨c1, c2, c3, c4⟩ := h2 id hid0
        have hne : s.counter ≠ id := by omega
        refine ⟨?_, ?_, ?_, ?_⟩
        · simp [countInvoked_append, countInvoked_singleton_created, c1]
        · simp [countCancelled_append, countCancelled_singleton_created, c2]
        · simp [appendsFor_append, appendsFor_singleton_created, c3]
        · intro e0
          simp only [List.mem_append, List.mem_singleton]
          rintro (hmem | hmem)
          · exact c4 e0 hmem
          · rw [AgAction.created.injEq] at hmem
            exact hne hmem.1.symm
      · intro id
        simp only [scheduleReply, hw]
        simpa [countInvoked_append, countInvoked_singleton_created,
          countCancelled_append, countCancelled_singleton_created] using h3 id
      · intro id a obs hmem
        simp only [scheduleReply, hw] at hmem ⊢
        rw [List.mem_append, List.mem_singleton] at hmem
        rcases hmem with hmem | hmem
        · obtain ⟨hc, ho⟩ := h4 id a obs hmem
          refine ⟨List.mem_append_left _ hc, ?_⟩
          simp [appendsFor_append, appendsFor_singleton_created, ho]
        · exact absurd hmem (by simp)
  | fire =>
    simp only [applyAgOp]
    cases hw : s.window with
    | none => simpa [agFire, hw] using ⟨h1, h2, h3, h4⟩
    | some pi =>
      obtain ⟨p, i⟩ := pi
      obtain ⟨hlt, hinv0, hcan0, hcre, hagg, hproc⟩ := h1 p i hw
      rw [agFire, hw]
      simp only [hproc, if_neg, Bool.false_eq_true, not_false_iff]
      refine ⟨?_, ?_, ?_, ?_⟩
      · intro q j hq
        simp at hq
      · intro id hid
        simp only at hid ⊢
        obtain ⟨c1, c2, c3, c4⟩ := h2 id hid
        have hne : i ≠ id := by omega
        refine ⟨?_, ?_, ?_, ?_⟩
        · simp [countInvoked_append, countInvoked_singleton_invoked, c1, hne]
        · simp [countCancelled_append, countCancelled_singleton_invoked, c2]
        · simp [appendsFor_append, appendsFor_singleton_invoked, c3]
        · intro e0
          simp only [List.mem_append, List.mem_singleton]
          rintro (hmem | hmem)
          · exact c4 e0 hmem
          · exact absurd hmem (by simp)
      · intro id
        by_cases hne : i = id
        · subst hne
          simp [countInvoked_append, countInvoked_singleton_invoked,
            countCancelled_append, countCancelled_singleton_invoked, hinv0, hcan0]
        · simpa [countInvoked_append, countInvoked_singleton_invoked,
            countCancelled_append, countCancelled_singleton_invoked, hne] using h3 id
      · intro id a obs hmem
        simp only at hmem ⊢
        rw [List.mem_append, List.mem_singleton] at hmem
        rcases hmem with hmem | hmem
        · obtain ⟨hc, ho⟩ := h4 id a obs hmem
          refine ⟨List.mem_append_left _ hc, ?_⟩
          simp [appendsFor_append, appendsFor_singleton_invoked, ho]
        · rw [AgAction.invoked.injEq] at hmem
          obtain ⟨hid, ha, hobs⟩ := hmem
          subst hid; subst ha; subst hobs
          refine ⟨List.mem_append_left _ hcre, ?_⟩
          simp [appendsFor_append, appendsFor_singleton_invoked, hagg]
  | cancel =>
    simp only [applyAgOp]
    cases hw : s.window with
    | none => simpa [cancelPendingReply, hw] using ⟨h1, h2, h3, h4⟩
    | some pi =>
      obtain ⟨p, i⟩ := pi
      obtain ⟨hlt, hinv0, hcan0, hcre, hagg, hproc⟩ := h1 p i hw
      refine ⟨?_, ?_, ?_, ?_⟩
      · intro q j hq
        simp [cancelPendingReply, hw] at hq
      · intro id hid
        simp only [cancelPendingReply, hw] at hid ⊢
        obtain ⟨c1, c2, c3, c4⟩ := h2 id hid
        have hne : i ≠ id := by omega
        refine ⟨?_, ?_, ?_, ?_⟩
        · simp [countInvoked_append, countInvoked_singleton_cancelled, c1]
        · simp [countCancelled_append, countCancelled_singleton_cancelled, c2, hne]
        · simp [appendsFor_append, appendsFor_singleton_cancelled, c3]
        · intro e0
          simp only [List.mem_append, List.mem_singleton]
          rintro (hmem | hmem)
          · exact c4 e0 hmem
          · exact absurd hmem (by simp)
      · intro id
        simp only [cancelPendingReply, hw]
        by_cases hne : i = id
        · subst hne
          simp [countInvoked_append, countInvoked_singleton_cancelled,
            countCancelled_append, countCancelled_singleton_cancelled, hinv0, hcan0]
        · simpa [countInvoked_append, countInvoked_singleton_cancelled,
            countCancelled_append, countCancelled_singleton_cancelled, hne] using h3 id
      · intro id a obs hmem
        simp only [cancelPendingReply, hw] at hmem ⊢
        rw [List.mem_append, List.mem_singleton] at hmem
        rcases hmem with hmem | hmem
        · obtain ⟨hc, ho⟩ := h4 id a obs hmem
          refine ⟨List.mem_append_left _ hc, ?_⟩
          simp [appendsFor_append, appendsFor_singleton_cancelled, ho]
        · exact absurd hmem (by simp)

theorem agInv_reachable (ops : List AgOp) : agInv (runAgOps ops) := by
  induction ops using List.reverseRecOn with
  | nil => exact agInv_initial
  | append_singleton ops op ih =>
    rw [runAgOps, List.foldl_append]
    exact agInv_step _ op ih

theorem mergeStep_chain (acc : List OpenAIMessage) (m : OpenAIMessage)
    (h : List.Chain' (fun a b => ¬ mergeablePair a b) acc) :
    List.Chain' (fun a b => ¬ mergeablePair a b) (mergeStep acc m) := by
  rcases List.eq_nil_or_concat' acc with rfl | ⟨l, last, rfl⟩
  · simp [mergeStep]
  · have h0 := h
    rw [List.chain'_append] at h
    obtain ⟨h1, _, h3⟩ := h
    have hR : ∀ x ∈ l.getLast?, ¬ mergeablePair x last := by
      intro x hx
      exact h3 x hx last (by simp)
    simp only [mergeStep, List.getLast?_concat, List.dropLast_concat]
    by_cases hc1 : last.role = .user ∧ m.role = .user
    · rw [if_pos hc1]
      rw [List.chain'_append]
      refine ⟨h1, List.chain'_singleton _, ?_⟩
      intro x hx y hy
      simp only [List.head?_cons, Option.mem_def, Option.some_inj] at hy
      subst hy
      intro hcon
      rcases hcon with ⟨hxu, hmu⟩ | ⟨hxa, hxtc, hma⟩
      · exact hR x hx (Or.inl ⟨hxu, hc1.1⟩)
      · simp [hc1.1] at hma
    · rw [if_neg hc1]
      by_cases hc2 : last.role = .assistant ∧ m.role = .assistant ∧
          last.tool_calls.length = 0
      · rw [if_pos hc2]
        rw [List.chain'_append]
        refine ⟨h1, List.chain'_singleton _, ?_⟩
        intro x hx y hy
        simp only [List.head?_cons, Option.mem_def, Option.some_inj] at hy
        subst hy
        intro hcon
        rcases hcon with ⟨hxu, hmu⟩ | ⟨hxa, hxtc, hma⟩
        · simp [hc2.1] at hmu
        · exact hR x hx (Or.inr ⟨hxa, hxtc, hc2.1⟩)
      · rw [if_neg hc2]
        rw [List.chain'_append]
        refine ⟨h0, List.chain'_singleton _, ?_⟩
        intro x hx y hy
        simp only [List.head?_cons, Option.mem_def, Option.some_inj] at hy
        subst hy
        rw [List.getLast?_concat, Option.mem_def, Option.some_inj] at hx
        subst hx
        intro hcon
        rcases hcon with ⟨hlu, hmu⟩ | ⟨hla, hltc, hma⟩
        · exact hc1 ⟨hlu, hmu⟩
        · exact hc2 ⟨hla, hma, by simp [hltc]⟩

theorem foldl_mergeStep_chain (msgs : List OpenAIMessage) :
    ∀ acc, List.Chain' (fun a b => ¬ mergeablePair a b) acc →
      List.Chain' (fun a b => ¬ mergeablePair a b) (msgs.foldl mergeStep acc) := by
  induction msgs with
  | nil => intro acc h; simpa using h
  | cons m rest ih => intro acc h; exact ih _ (mergeStep_chain acc m h)

theorem mergePass_chain (msgs : List OpenAIMessage) :
    List.Chain' (fun a b => ¬ mergeablePair a b) (mergePass msgs) :=
  foldl_mergeStep_chain msgs [] (by simp)

theorem scanAvail_append (l1 l2 : List OpenAIMessage) :
    ∀ avail, scanAvail avail (l1 ++ l2) =
      (scanAvail avail l1).bind fun a => scanAvail a l2 := by
  induction l1 with
  | nil => intro avail; simp [scanAvail]
  | cons m rest ih =>
    intro avail
    simp only [List.cons_append, scanAvail]
    by_cases h1 : m.role = .assistant
    · simp only [h1, if_pos]
      exact ih _
    · by_cases h2 : m.role = .tool
      · cases hid : m.tool_call_id with
        | none => simp [h1, h2, hid]
        | some id =>
          by_cases hmem : id ∈ avail
          · simp [h1, h2, hid, hmem, ih]
          · simp [h1, h2, hid, hmem]
      · simp only [if_neg h1, if_neg h2]
        exact ih _

theorem scanAvail_singleton_nontool (m : OpenAIMessage) (hT : ¬ m.role = .tool) :
    ∀ avail, scanAvail avail [m] =
      some (if m.role = .assistant then avail ++ m.tool_calls.map OpenAIToolCall.id
            else avail) := by
  intro avail
  by_cases h1 : m.role = .assistant
  · simp [scanAvail, h1]
  · simp [scanAvail, h1, hT]

theorem pendingAdd_cons (p : List String) (tc : OpenAIToolCall)
    (rest : List OpenAIToolCall) :
    pendingAdd p (tc :: rest) =
      pendingAdd (if tc.id ∈ p then p else p ++ [tc.id]) rest := rfl

theorem pendingAdd_nodup (tcs : List OpenAIToolCall) :
    ∀ p : List String, p.Nodup → (pendingAdd p tcs).Nodup := by
  induction tcs with
  | nil => intro p hp; simpa [pendingAdd] using hp
  | cons tc rest ih =>
    intro p hp
    rw [pendingAdd_cons]
    by_cases hmem : tc.id ∈ p
    · rw [if_pos hmem]; exact ih p hp
    · rw [if_neg hmem]
      refine ih _ ?_
      simp [List.nodup_append, hp, hmem]

theorem pendingAdd_mem (tcs : List OpenAIToolCall) :
    ∀ p id, id ∈ pendingAdd p tcs → id ∈ p ∨ id ∈ tcs.map OpenAIToolCall.id := by
  induction tcs with
  | nil => intro p id h; exact Or.inl (by simpa [pendingAdd] using h)
  | cons tc rest ih =>
    intro p id h
    rw [pendingAdd_cons] at h
    rcases ih _ id h with hp | hr
    · by_cases hmem : tc.id ∈ p
      · rw [if_pos hmem] at hp
        exact Or.inl hp
      · rw [if_neg hmem] at hp
        rcases List.mem_append.1 hp with hp2 | hp2
        · exact Or.inl hp2
        · right
          simp only [List.mem_singleton] at hp2
          simp [hp2]
    · right
      simp only [List.map_cons, List.mem_cons]
      exact Or.inr hr

theorem filterStep_asst (valid : List OpenAIMessage) (pending : List String)
    (m : OpenAIMessage) (hA : m.role = .assistant ∧ m.tool_calls.length > 0) :
    filterStep (valid, pending) m = (valid ++ [m], pendingAdd pending m.tool_calls) := by
  simp [filterStep, hA]

theorem filterStep_tool_keep (valid : List OpenAIMessage) (pending : List String)
    (m : OpenAIMessage) (id : String) (hT : m.role = .tool)
    (hid : m.tool_call_id = some id) (hkeep : id ≠ "" ∧ id ∈ pending) :
    filterStep (valid, pending) m = (valid ++ [m], pending.erase id) := by
  simp [filterStep, hT, hid, hkeep.1, hkeep.2]

theorem filterStep_tool_drop (valid : List OpenAIMessage) (pending : List String)
    (m : OpenAIMessage) (id : String) (hT : m.role = .tool)
    (hid : m.tool_call_id = some id) (hkeep : ¬ (id ≠ "" ∧ id ∈ pending)) :
    filterStep (valid, pending) m = (valid, pending) := by
  simp only [filterStep, hT, hid]
  simp [hkeep]

theorem filterStep_tool_noid (valid : List OpenAIMessage) (pending : List String)
    (m : OpenAIMessage) (hT : m.role = .tool) (hid : m.tool_call_id = none) :
    filterStep (valid, pending) m = (valid, pending) := by
  simp [filterStep, hT, hid]

theorem filterStep_other_pop (valid : List OpenAIMessage) (pending : List String)
    (m last : OpenAIMessage) (hA : ¬ (m.role = .assistant ∧ m.tool_calls.length > 0))
    (hT : ¬ m.role = .tool) (hp : pending.length > 0)
    (hl : valid.getLast? = some last)
    (hpop : last.role = .assistant ∧ last.tool_calls.length > 0) :
    filterStep (valid, pending) m = (valid.dropLast ++ [m], []) := by
  simp [filterStep, hA, hT, hp, hl, hpop]

theorem filterStep_other_nopop (valid : List OpenAIMessage) (pending : List String)
    (m last : OpenAIMessage) (hA : ¬ (m.role = .assistant ∧ m.tool_calls.length > 0))
    (hT : ¬ m.role = .tool) (hp : pending.length > 0)
    (hl : valid.getLast? = some last)
    (hpop : ¬ (last.role = .assistant ∧ last.tool_calls.length > 0)) :
    filterStep (valid, pending) m = (valid ++ [m], []) := by
  simp only [filterStep, hA, hT, hp, hl]
  simp [hpop]

theorem filterStep_other_empty (valid : List OpenAIMessage) (pending : List String)
    (m : OpenAIMessage) (hA : ¬ (m.role = .assistant ∧ m.tool_calls.length > 0))
    (hT : ¬ m.role = .tool) (hl : valid.getLast? = none) (hp : pending.length > 0) :
    filterStep (valid, pending) m = (valid ++ [m], []) := by
  simp [filterStep, hA, hT, hp, hl]

theorem filterStep_other_nopending (valid : List OpenAIMessage)
    (pending : List String) (m : OpenAIMessage)
    (hA : ¬ (m.role = .assistant ∧ m.tool_calls.length > 0))
    (hT : ¬ m.role = .tool) (hp : ¬ pending.length > 0) :
    filterStep (valid, pending) m = (valid ++ [m], pending) := by
  simp [filterStep, hA, hT, hp]

theorem scanAvail_push_nontool (valid : List OpenAIMessage) (m : OpenAIMessage)
    (avail : List String) (hT : ¬ m.role = .tool)
    (hscan : scanAvail [] valid = some avail) :
    ∃ a2, scanAvail [] (valid ++ [m]) = some a2 := by
  rw [scanAvail_append, hscan, Option.some_bind, scanAvail_singleton_nontool m hT]
  exact ⟨_, rfl⟩

theorem filterInv_step (acc : List OpenAIMessage × List String) (m : OpenAIMessage)
    (h : filterInv acc) : filterInv (filterStep acc m) := by
  obtain ⟨valid, pending⟩ := acc
  obtain ⟨hnd, avail, hscan, hsub⟩ := h
  simp only at hnd hscan hsub
  by_cases hA : m.role = .assistant ∧ m.tool_calls.length > 0
  · rw [filterStep_asst valid pending m hA]
    refine ⟨pendingAdd_nodup _ _ hnd, avail ++ m.tool_calls.map OpenAIToolCall.id, ?_, ?_⟩
    · rw [scanAvail_append, hscan, Option.some_bind,
        scanAvail_singleton_nontool m (by simp [hA.1]), if_pos hA.1]
    · intro id hid
      rcases pendingAdd_mem _ _ id hid with hp | hm
      · exact List.mem_append_left _ (hsub id hp)
      · exact List.mem_append_right _ hm
  · by_cases hT : m.role = .tool
    · cases hid : m.tool_call_id with
      | none =>
        rw [filterStep_tool_noid valid pending m hT hid]
        exact ⟨hnd, avail, hscan, hsub⟩
      | some id =>
        by_cases hkeep : id ≠ "" ∧ id ∈ pending
        · rw [filterStep_tool_keep valid pending m id hT hid hkeep]
          refine ⟨hnd.erase id, avail.erase id, ?_, ?_⟩
          · have hidav : id ∈ avail := hsub id hkeep.2
            rw [scanAvail_append, hscan, Option.some_bind]
            simp [scanAvail, hT, hid, hidav, by simpa [hT] using hA]
          · intro x hx
            rw [hnd.mem_erase_iff] at hx
            exact (List.mem_erase_of_ne hx.1).mpr (hsub x hx.2)
        · rw [filterStep_tool_drop valid pending m id hT hid hkeep]
          exact ⟨hnd, avail, hscan, hsub⟩
    · by_cases hp : pending.length > 0
      · cases hl : valid.getLast? with
        | some lastMsg =>
          by_cases hpop : lastMsg.role = .assistant ∧ lastMsg.tool_calls.length > 0
          · rw [filterStep_other_pop valid pending m lastMsg hA hT hp hl hpop]
            refine ⟨List.nodup_nil, ?_⟩
            rcases List.eq_nil_or_concat' valid with rfl | ⟨L, b, rfl⟩
            · simp at hl
            · rw [List.dropLast_concat]
              rw [scanAvail_append] at hscan
              cases hsL : scanAvail [] L with
              | none => rw [hsL] at hscan; simp at hscan
              | some a1 =>
                obtain ⟨a2, ha2⟩ := scanAvail_push_nontool L m a1 hT hsL
                exact ⟨a2, ha2, by simp⟩
          · rw [filterStep_other_nopop valid pending m lastMsg hA hT hp hl hpop]
            refine ⟨List.nodup_nil, ?_⟩
            obtain ⟨a2, ha2⟩ := scanAvail_push_nontool valid m avail hT hscan
            exact ⟨a2, ha2, by simp⟩
        | none =>
          rw [filterStep_other_empty valid pending m hA hT hl hp]
          refine ⟨List.nodup_nil, ?_⟩
          obtain ⟨a2, ha2⟩ := scanAvail_push_nontool valid m avail hT hscan
          exact ⟨a2, ha2, by simp⟩
      · rw [filterStep_other_nopending valid pending m hA hT hp]
        have hpe : pending = [] := by
          simpa using List.length_eq_zero.mp (by omega)
        subst hpe
        refine ⟨List.nodup_nil, ?_⟩
        obtain ⟨a2, ha2⟩ := scanAvail_push_nontool valid m avail hT hscan
        exact ⟨a2, ha2, by simp⟩

theorem filterInv_foldl (msgs : List OpenAIMessage) :
    ∀ acc, filterInv acc → filterInv (msgs.foldl filterStep acc) := by
  induction msgs with
  | nil => intro acc h; simpa using h
  | cons m rest ih => intro acc h; exact ih _ (filterInv_step acc m h)

theorem dropTrailing_pop (valid : List OpenAIMessage) (pending : List String)
    (last : OpenAIMessage) (hp : pending.length > 0)
    (hl : valid.getLast? = some last)
    (hpop : last.role = .assistant ∧ last.tool_calls.length > 0) :
    dropTrailingUnanswered valid pending = valid.dropLast := by
  simp [dropTrailingUnanswered, hp, hl, hpop]

theorem dropTrailing_scan (valid : List OpenAIMessage) (pending : List String)
    (h : ∃ avail, scanAvail [] valid = some avail) :
    ∃ a2, scanAvail [] (dropTrailingUnanswered valid pending) = some a2 := by
  obtain ⟨avail, hscan⟩ := h
  by_cases hp : pending.length > 0
  · cases hl : valid.getLast? with
    | none =>
      have : dropTrailingUnanswered valid pending = valid := by
        simp [dropTrailingUnanswered, hp, hl]
      rw [this]
      exact ⟨avail, hscan⟩
    | some lastMsg =>
      by_cases hpop : lastMsg.role = .assistant ∧ lastMsg.tool_calls.length > 0
      · rw [dropTrailing_pop valid pending lastMsg hp hl hpop]
        rcases List.eq_nil_or_concat' valid with rfl | ⟨L, b, rfl⟩
        · simp at hl
        · rw [List.dropLast_concat]
          rw [scanAvail_append] at hscan
          cases hsL : scanAvail [] L with
          | none => rw [hsL] at hscan; simp at hscan
          | some a1 => exact ⟨a1, rfl⟩
      · have : dropTrailingUnanswered valid pending = valid := by
          simp only [dropTrailingUnanswered, hp, hl]
          simp [hpop]
        rw [this]
        exact ⟨avail, hscan⟩
  · have : dropTrailingUnanswered valid pending = valid := by
      simp [dropTrailingUnanswered, hp]
    rw [this]
    exact ⟨avail, hscan⟩

theorem mergeConsecutiveMessages_noOrphan (msgs : List OpenAIMessage) :
    NoOrphanTool (mergeConsecutiveMessages msgs) := by
  have hinv : filterInv ((mergePass msgs).foldl filterStep ([], [])) := by
    refine filterInv_foldl _ _ ?_
    exact ⟨List.nodup_nil, [], rfl, by simp⟩
  obtain ⟨_, avail, hscan, _⟩ := hinv
  have := dropTrailing_scan ((mergePass msgs).foldl filterStep ([], [])).1
    ((mergePass msgs).foldl filterStep ([], [])).2 ⟨avail, hscan⟩
  obtain ⟨a2, ha2⟩ := this
  unfold NoOrphanTool mergeConsecutiveMessages
  rw [ha2]
  rfl

theorem abortCurrentProcessing_queue (s : GroupQueueState) :
    (abortCurrentProcessing s).queue = s.queue := by
  unfold abortCurrentProcessing
  by_cases hp : s.processing = false
  · rw [if_pos hp]
  · rw [if_neg hp]
    cases s.abortController <;> rfl

theorem finishProcessing_clears (gq : GroupQueueState) :
    (finishProcessing gq).1.processing = false ∧
    (finishProcessing gq).1.currentUserId = none ∧
    (finishProcessing gq).1.abortController = none := by
  unfold finishProcessing
  cases gq.queue <;> exact ⟨rfl, rfl, rfl⟩

/- ============================================================
   CLAIMS
   ============================================================ -/

/-- C1 (amended): every state of a group entry of the group-queue module
reachable by any sequence of module operations keeps processing,
currentUserId and abortController all unset together or all set together
(hence the state records at most one active generation per group), and the
deferred FIFO never grows beyond 10 entries.  The further clause of the
claim, that startProcessing is never invoked for a group that is already
processing without an intervening finishProcessing, fails on the code: see
the counterexample trace. -/
theorem C1_scheduler_invariant (s : GroupQueueState) (h : QueueReachable s) :
    ((s.processing = false ∧ s.currentUserId = none ∧ s.abortController = none) ∨
     (s.processing = true ∧ s.currentUserId ≠ none ∧ s.abortController ≠ none)) ∧
    s.queue.length ≤ 10 := by
  have hi := queueInvariant_reachable s h
  simpa [queueInvariant, MAX_QUEUE_SIZE] using hi

/-- C1 witness: the invariant evaluated on the concrete reachable state after
startProcessing. -/
theorem C1_witness :
    (((runQueueOps initialQueueState [QueueOp.start 5]).processing = false ∧
      (runQueueOps initialQueueState [QueueOp.start 5]).currentUserId = none ∧
      (runQueueOps initialQueueState [QueueOp.start 5]).abortController = none) ∨
     ((runQueueOps initialQueueState [QueueOp.start 5]).processing = true ∧
      (runQueueOps initialQueueState [QueueOp.start 5]).currentUserId ≠ none ∧
      (runQueueOps initialQueueState [QueueOp.start 5]).abortController ≠ none)) ∧
    (runQueueOps initialQueueState [QueueOp.start 5]).queue.length ≤ 10 :=
  C1_scheduler_invariant _ ⟨[QueueOp.start 5], rfl⟩

/-- C1 counterexample: a double startProcessing without an intervening
finishProcessing.  The interleaving is realizable in the source: a window is
created for event 3 in the gap between the finally block of a finished
generation (which popped queued event 2 and scheduled its processing through
setImmediate) and the setImmediate callback running; afterwards the window
timer expires while the drained generation for event 2 is still running, and
the timer callback enters processReply, whose startProcessing is not guarded
by any isGroupProcessing check. -/
theorem C1_counterexample :
    hasDoubleStart (runOrch { cooldownMs := 3000 }
      [ OrchStep.arrive { message_id := 1, group_id := 100, user_id := 10 } true 0
      , OrchStep.timerFire
      , OrchStep.arrive { message_id := 2, group_id := 100, user_id := 20 } true 1
      , OrchStep.complete { message_id := 1, group_id := 100, user_id := 10 }
      , OrchStep.arrive { message_id := 3, group_id := 100, user_id := 30 } true 2
      , OrchStep.drainRun
      , OrchStep.timerFire ]).log = true ∧
    (runOrch { cooldownMs := 3000 }
      [ OrchStep.arrive { message_id := 1, group_id := 100, user_id := 10 } true 0
      , OrchStep.timerFire
      , OrchStep.arrive { message_id := 2, group_id := 100, user_id := 20 } true 1
      , OrchStep.complete { message_id := 1, group_id := 100, user_id := 10 }
      , OrchStep.arrive { message_id := 3, group_id := 100, user_id := 30 } true 2
      , OrchStep.drainRun ]).gq.processing = true ∧
    (runOrch { cooldownMs := 3000 }
      [ OrchStep.arrive { message_id := 1, group_id := 100, user_id := 10 } true 0
      , OrchStep.timerFire
      , OrchStep.arrive { message_id := 2, group_id := 100, user_id := 20 } true 1
      , OrchStep.complete { message_id := 1, group_id := 100, user_id := 10 }
      , OrchStep.arrive { message_id := 3, group_id := 100, user_id := 30 } true 2
      , OrchStep.drainRun ]).window =
      some { message_id := 3, group_id := 100, user_id := 30 } := by
  refine ⟨?_, ?_, ?_⟩ <;> rfl

/-- C7 (amended): appending to a full queue (length 10) drops exactly one
entry, the head (oldest), before appending; below capacity nothing is
dropped.  In the 11-event scenario the 1st event (not the 2nd) is evicted
when the 11th arrives and the queue retains events 2 through 11 in arrival
order. -/
theorem C7_queue_overflow :
    (∀ (s : GroupQueueState) (e : GroupMessageEvent) (now : Nat),
        s.queue.length = 10 →
        (enqueueMessage s e now).queue =
          s.queue.drop 1 ++ [{ event := e, addedAt := now }] ∧
        (enqueueMessage s e now).queue.length = 10) ∧
    (∀ (s : GroupQueueState) (e : GroupMessageEvent) (now : Nat),
        s.queue.length < 10 →
        (enqueueMessage s e now).queue = s.queue ++ [{ event := e, addedAt := now }]) ∧
    ((List.range 11).foldl
        (fun s k => enqueueMessage s
          { message_id := k + 1, group_id := 1, user_id := 100 + k } k)
        (startProcessing initialQueueState 999)).queue.map
      (fun m => m.event.message_id) = [2, 3, 4, 5, 6, 7, 8, 9, 10, 11] := by
  refine ⟨?_, ?_, ?_⟩
  · intro s e now h
    constructor
    · simp [enqueueMessage, MAX_QUEUE_SIZE, h]
    · simp [enqueueMessage, MAX_QUEUE_SIZE, h]
  · intro s e now h
    have hlt : ¬ s.queue.length ≥ MAX_QUEUE_SIZE := by
      simp only [MAX_QUEUE_SIZE]
      omega
    simp [enqueueMessage, hlt]
  · rfl

/-- C7 witness: the full-queue clause evaluated on a concrete queue of
length 10. -/
theorem C7_witness :
    ((enqueueMessage
        { processing := true, currentUserId := some 1, abortController := some ⟨false⟩
        , queue := (List.range 10).map fun k =>
            { event := { message_id := k, group_id := 1, user_id := k }, addedAt := k } }
        { message_id := 10, group_id := 1, user_id := 10 } 10).queue =
      ((List.range 10).map fun k =>
        { event := { message_id := k, group_id := 1, user_id := k }
        , addedAt := k : QueuedMessage }).drop 1 ++
        [{ event := { message_id := 10, group_id := 1, user_id := 10 }, addedAt := 10 }] ∧
     (enqueueMessage
        { processing := true, currentUserId := some 1, abortController := some ⟨false⟩
        , queue := (List.range 10).map fun k =>
            { event := { message_id := k, group_id := 1, user_id := k }, addedAt := k } }
        { message_id := 10, group_id := 1, user_id := 10 } 10).queue.length = 10) :=
  C7_queue_overflow.1 _ _ _ (by rfl)

/-- C7 counterexample: the scenario numbers of the claim are wrong on the
code: after 11 enqueues into a busy group the queue holds events 2 through
11, not 3 through 11, and the evicted entry is event 1, not event 2. -/
theorem C7_counterexample :
    ((List.range 11).foldl
        (fun s k => enqueueMessage s
          { message_id := k + 1, group_id := 1, user_id := 100 + k } k)
        (startProcessing initialQueueState 999)).queue.map
      (fun m => m.event.message_id) ≠ [3, 4, 5, 6, 7, 8, 9, 10, 11] ∧
    (1 ∉ ((List.range 11).foldl
        (fun s k => enqueueMessage s
          { message_id := k + 1, group_id := 1, user_id := 100 + k } k)
        (startProcessing initialQueueState 999)).queue.map
      (fun m => m.event.message_id)) ∧
    (2 ∈ ((List.range 11).foldl
        (fun s k => enqueueMessage s
          { message_id := k + 1, group_id := 1, user_id := 100 + k } k)
        (startProcessing initialQueueState 999)).queue.map
      (fun m => m.event.message_id)) := by
  refine ⟨?_, ?_, ?_⟩ <;> decide

/-- C10: a completed, non-cancelled generation whose final text trims to the
empty string sends nothing and appends no assistant reply entry; the durable
history receives exactly the tool transcript, which is persisted before the
emptiness check; the finally block still releases the lock. -/
theorem C10_empty_reply (content : String) (tms hist : List ChatMessage)
    (gq : GroupQueueState) (now : Nat) (h : jsTrim content = "") :
    processReplyPersist (.ok content tms false) false hist gq now =
      (hist ++ tms, none, (finishProcessing gq).1, (finishProcessing gq).2) := by
  simp [processReplyPersist, h]

/-- C5: a triggering event arriving for a processing group from the same
user signals the cancellation handle and does not enqueue; from a different
user it is enqueued; the preempt operation never modifies the queue; and a
same-user preemption alone (empty queue, no other pending work) leaves the
group idle after the cancelled generation finishes, with no new
startProcessing. -/
theorem C5_preemption :
    (∀ s : GroupQueueState, (abortCurrentProcessing s).queue = s.queue) ∧
    (∀ (cfg : OrchCfg) (s : OrchState) (e : GroupMessageEvent) (now : Nat),
        s.window = none → s.gq.processing = true →
        s.gq.currentUserId = some e.user_id →
        orchArrive cfg s e true now =
          { s with gq := abortCurrentProcessing s.gq
                 , log := s.log ++ [OrchAction.abortCur] }) ∧
    (∀ (cfg : OrchCfg) (s : OrchState) (e : GroupMessageEvent) (now : Nat),
        s.window = none → s.gq.processing = true →
        ¬ s.gq.currentUserId = some e.user_id →
        orchArrive cfg s e true now =
          { s with gq := enqueueMessage s.gq e now
                 , log := s.log ++ [OrchAction.enqueued e.user_id] }) ∧
    (∀ (cfg : OrchCfg) (s : OrchState) (e e0 : GroupMessageEvent) (now : Nat),
        s.window = none → s.pendingDrains = [] → s.inflight = [e0] →
        s.gq.processing = true → s.gq.currentUserId = some e.user_id →
        s.gq.queue = [] →
        (orchComplete (orchArrive cfg s e true now) e0).gq.processing = false ∧
        (orchComplete (orchArrive cfg s e true now) e0).gq.currentUserId = none ∧
        (orchComplete (orchArrive cfg s e true now) e0).gq.abortController = none ∧
        (orchComplete (orchArrive cfg s e true now) e0).gq.queue = [] ∧
        (orchComplete (orchArrive cfg s e true now) e0).pendingDrains = [] ∧
        (orchComplete (orchArrive cfg s e true now) e0).window = none ∧
        (orchComplete (orchArrive cfg s e true now) e0).inflight = [] ∧
        (orchComplete (orchArrive cfg s e true now) e0).log =
          s.log ++ [OrchAction.abortCur, OrchAction.finish]) := by
  refine ⟨?_, ?_, ?_, ?_⟩
  · exact abortCurrentProcessing_queue
  · intro cfg s e now hw hp hu
    simp [orchArrive, hw, hp, hu]
  · intro cfg s e now hw hp hu
    simp [orchArrive, hw, hp, hu]
  · intro cfg s e e0 now hw hd hi hp hu hq
    have harr : orchArrive cfg s e true now =
        { s with gq := abortCurrentProcessing s.gq
               , log := s.log ++ [OrchAction.abortCur] } := by
      simp [orchArrive, hw, hp, hu]
    rw [harr]
    have hqa : (abortCurrentProcessing s.gq).queue = [] := by
      rw [abortCurrentProcessing_queue, hq]
    have hfin : finishProcessing (abortCurrentProcessing s.gq) =
        ({ processing := false, currentUserId := none, abortController := none
         , queue := [] }, none) := by
      unfold finishProcessing
      simp [hqa]
    simp [orchComplete, hi, hd, hw, hfin, hqa]

/-- C5 witness: the same-user preemption scenario evaluated at a concrete
processing state with an empty queue. -/
theorem C5_witness :
    (orchComplete
      (orchArrive { cooldownMs := 3000 }
        { gq := startProcessing initialQueueState 7, window := none
        , pendingDrains := [], inflight := [{ message_id := 1, group_id := 9, user_id := 7 }]
        , log := [] }
        { message_id := 2, group_id := 9, user_id := 7 } true 4)
      { message_id := 1, group_id := 9, user_id := 7 }).gq.processing = false ∧
    (orchComplete
      (orchArrive { cooldownMs := 3000 }
        { gq := startProcessing initialQueueState 7, window := none
        , pendingDrains := [], inflight := [{ message_id := 1, group_id := 9, user_id := 7 }]
        , log := [] }
        { message_id := 2, group_id := 9, user_id := 7 } true 4)
      { message_id := 1, group_id := 9, user_id := 7 }).pendingDrains = [] ∧
    (orchComplete
      (orchArrive { cooldownMs := 3000 }
        { gq := startProcessing initialQueueState 7, window := none
        , pendingDrains := [], inflight := [{ message_id := 1, group_id := 9, user_id := 7 }]
        , log := [] }
        { message_id := 2, group_id := 9, user_id := 7 } true 4)
      { message_id := 1, group_id := 9, user_id := 7 }).log =
      [OrchAction.abortCur, OrchAction.finish] := by
  have h := C5_preemption.2.2.2 { cooldownMs := 3000 }
    { gq := startProcessing initialQueueState 7, window := none
    , pendingDrains := [], inflight := [{ message_id := 1, group_id := 9, user_id := 7 }]
    , log := [] }
    { message_id := 2, group_id := 9, user_id := 7 }
    { message_id := 1, group_id := 9, user_id := 7 } 4
    rfl rfl rfl rfl rfl rfl
  exact ⟨h.1, h.2.2.2.2.1, by simpa using h.2.2.2.2.2.2.2⟩

/-- C3 (amended): checkAndCompress restores the stored history and memory
exactly to their pre-compression values and returns false whenever the
summarization call throws, whenever persisting the new memory throws, and
whenever persisting the truncated history throws while a pre-compression
memory existed.  When no pre-compression memory existed and the failure
occurs after the new memory was persisted, the history is restored and false
is returned but the freshly written memory survives (see the
counterexample), so restoration is not exact in that corner. -/
theorem C3_rollback (store : ContextStore) (env : CompressEnv)
    (h : env.summaryResult = Except.error () ∨ env.saveMemoryOk = false ∨
      (env.saveContextOk = false ∧ store.memory ≠ none)) :
    checkAndCompress store env = (store, false) := by
  obtain ⟨gid, msgs, lu, mem⟩ := store
  unfold checkAndCompress
  by_cases h1 : msgs.length < env.compressionThreshold
  · simp [h1]
  · by_cases h2 : (jsSliceToNeg msgs (env.maxMessages / 3)).length = 0
    · simp [h1, h2]
    · cases hsum : env.summaryResult with
      | error u =>
        cases u
        cases mem with
        | none => simp [h1, h2, hsum, compressRollback]
        | some m => simp [h1, h2, hsum, compressRollback]
      | ok summary =>
        rcases h with hs | hm | ⟨hc, hmem⟩
        · rw [hsum] at hs
          exact absurd hs (by simp)
        · cases mem with
          | none => simp [h1, h2, hsum, hm, compressRollback]
          | some m => simp [h1, h2, hsum, hm, compressRollback]
        · by_cases hm2 : env.saveMemoryOk = false
          · cases mem with
            | none => simp [h1, h2, hsum, hm2, compressRollback]
            | some m => simp [h1, h2, hsum, hm2, compressRollback]
          · cases mem with
            | none => exact absurd rfl hmem
            | some m => simp [h1, h2, hsum, hm2, hc, compressRollback]

/-- C3 witness: a persistence failure after a successful summarization, with
a pre-existing memory: state and memory restored exactly, result false. -/
theorem C3_witness :
    checkAndCompress
      { groupId := 1
      , messages := [{ role := "user", content := some "a" },
                     { role := "user", content := some "b" }]
      , lastUpdated := 0
      , memory := some { groupId := 1, summary := "OLD", lastCompressed := 0 } }
      { compressionThreshold := 1, maxMessages := 3
      , summaryResult := Except.ok "S", saveMemoryOk := true
      , saveContextOk := false, now := 5 } =
      ({ groupId := 1
       , messages := [{ role := "user", content := some "a" },
                      { role := "user", content := some "b" }]
       , lastUpdated := 0
       , memory := some { groupId := 1, summary := "OLD", lastCompressed := 0 } },
       false) :=
  C3_rollback _ _ (Or.inr (Or.inr ⟨rfl, by simp⟩))

/-- C3 counterexample: with no pre-existing memory, a history-persistence
failure after the new memory was already saved leaves the new memory behind:
the pre-compression state (memory absent) is not restored verbatim, although
false is returned and the history itself is restored. -/
theorem C3_counterexample :
    (checkAndCompress
      { groupId := 1
      , messages := [{ role := "user", content := some "a" },
                     { role := "user", content := some "b" }]
      , lastUpdated := 0, memory := none }
      { compressionThreshold := 1, maxMessages := 3
      , summaryResult := Except.ok "S", saveMemoryOk := true
      , saveContextOk := false, now := 5 }).2 = false ∧
    (checkAndCompress
      { groupId := 1
      , messages := [{ role := "user", content := some "a" },
                     { role := "user", content := some "b" }]
      , lastUpdated := 0, memory := none }
      { compressionThreshold := 1, maxMessages := 3
      , summaryResult := Except.ok "S", saveMemoryOk := true
      , saveContextOk := false, now := 5 }).1.messages =
      [{ role := "user", content := some "a" },
       { role := "user", content := some "b" }] ∧
    (checkAndCompress
      { groupId := 1
      , messages := [{ role := "user", content := some "a" },
                     { role := "user", content := some "b" }]
      , lastUpdated := 0, memory := none }
      { compressionThreshold := 1, maxMessages := 3
      , summaryResult := Except.ok "S", saveMemoryOk := true
      , saveContextOk := false, now := 5 }).1.memory ≠ none := by
  refine ⟨?_, ?_, ?_⟩ <;> decide

/-- C6: with reliable persistence, every checkAndCompress call either leaves
the store byte-for-byte unchanged and returns false (the no-op paths and a
failing summarization call), or succeeds with true, a history length of
max(0, originalLength - compressedCount), and a new memory that extends the
prior memory by concatenation (the prior summary is a prefix, nothing is
discarded). -/
theorem C6_compress_roundtrip (store : ContextStore) (env : CompressEnv)
    (h1 : env.saveMemoryOk = true) (h2 : env.saveContextOk = true) :
    ((checkAndCompress store env).2 = false ∧ (checkAndCompress store env).1 = store) ∨
    ((checkAndCompress store env).2 = true ∧
      ((checkAndCompress store env).1.messages.length : ℤ) =
        max 0 ((store.messages.length : ℤ) -
          ((jsSliceToNeg store.messages (env.maxMessages / 3)).length : ℤ)) ∧
      ∃ mem2, (checkAndCompress store env).1.memory = some mem2 ∧
        ∃ rest, mem2.summary = memorySummaryOf store.memory ++ rest) := by
  obtain ⟨gid, msgs, lu, mem⟩ := store
  by_cases hth : msgs.length < env.compressionThreshold
  · left
    have heq : checkAndCompress ⟨gid, msgs, lu, mem⟩ env =
        (⟨gid, msgs, lu, mem⟩, false) := by
      simp [checkAndCompress, hth]
    rw [heq]
    exact ⟨rfl, rfl⟩
  · by_cases hcc : (jsSliceToNeg msgs (env.maxMessages / 3)).length = 0
    · left
      have heq : checkAndCompress ⟨gid, msgs, lu, mem⟩ env =
          (⟨gid, msgs, lu, mem⟩, false) := by
        simp [checkAndCompress, hth, hcc]
      rw [heq]
      exact ⟨rfl, rfl⟩
    · cases hsum : env.summaryResult with
      | error u =>
        cases u
        left
        have heq : checkAndCompress ⟨gid, msgs, lu, mem⟩ env =
            (⟨gid, msgs, lu, mem⟩, false) := by
          cases mem with
          | none => simp [checkAndCompress, hth, hcc, hsum, compressRollback]
          | some m => simp [checkAndCompress, hth, hcc, hsum, compressRollback]
        rw [heq]
        exact ⟨rfl, rfl⟩
      | ok summary =>
        right
        have hk : env.maxMessages / 3 ≠ 0 := by
          intro h0
          exact hcc (by simp [jsSliceToNeg, h0])
        have hlen1 : (jsSliceToNeg msgs (env.maxMessages / 3)).length =
            msgs.length - env.maxMessages / 3 := by
          simp [jsSliceToNeg, hk, List.length_take,
            Nat.min_eq_left (Nat.sub_le _ _)]
        have hklt : env.maxMessages / 3 < msgs.length := by
          rw [hlen1] at hcc
          omega
        have hlen2 : (jsSliceFromNeg msgs (env.maxMessages / 3)).length =
            env.maxMessages / 3 := by
          simp [jsSliceFromNeg, hk, List.length_drop]
          omega
        cases mem with
        | none =>
          have heq : checkAndCompress ⟨gid, msgs, lu, none⟩ env =
              ({ groupId := gid
               , messages := jsSliceFromNeg msgs (env.maxMessages / 3)
               , lastUpdated := env.now
               , memory := some { groupId := gid, summary := summary
                                , lastCompressed := env.now } }, true) := by
            simp [checkAndCompress, hth, hcc, hsum, h1, h2]
          rw [heq]
          refine ⟨rfl, ?_, ?_⟩
          · simp only [hlen2, hlen1]
            rw [max_eq_right (by omega)]
            omega
          · refine ⟨_, rfl, summary, ?_⟩
            simp [memorySummaryOf]
        | some m =>
          have heq : checkAndCompress ⟨gid, msgs, lu, some m⟩ env =
              ({ groupId := gid
               , messages := jsSliceFromNeg msgs (env.maxMessages / 3)
               , lastUpdated := env.now
               , memory := some { groupId := gid
                                , summary := m.summary ++ "\n\n---\n\n" ++ summary
                                , lastCompressed := env.now } }, true) := by
            simp [checkAndCompress, hth, hcc, hsum, h1, h2]
          rw [heq]
          refine ⟨rfl, ?_, ?_⟩
          · simp only [hlen2, hlen1]
            rw [max_eq_right (by omega)]
            omega
          · refine ⟨_, rfl, "\n\n---\n\n" ++ summary, ?_⟩
            simp [memorySummaryOf, String.append_assoc]

/-- C6 witness: evaluated at a concrete store and environment on the
successful branch. -/
theorem C6_witness :
    ((checkAndCompress
        { groupId := 1
        , messages := [{ role := "user" }, { role := "user" }, { role := "user" },
                       { role := "user" }]
        , lastUpdated := 0
        , memory := some { groupId := 1, summary := "OLD", lastCompressed := 0 } }
        { compressionThreshold := 2, maxMessages := 3
        , summaryResult := Except.ok "S", saveMemoryOk := true
        , saveContextOk := true, now := 9 }).2 = false ∧
     (checkAndCompress
        { groupId := 1
        , messages := [{ role := "user" }, { role := "user" }, { role := "user" },
                       { role := "user" }]
        , lastUpdated := 0
        , memory := some { groupId := 1, summary := "OLD", lastCompressed := 0 } }
        { compressionThreshold := 2, maxMessages := 3
        , summaryResult := Except.ok "S", saveMemoryOk := true
        , saveContextOk := true, now := 9 }).1 =
        { groupId := 1
        , messages := [{ role := "user" }, { role := "user" }, { role := "user" },
                       { role := "user" }]
        , lastUpdated := 0
        , memory := some { groupId := 1, summary := "OLD", lastCompressed := 0 } }) ∨
    ((checkAndCompress
        { groupId := 1
        , messages := [{ role := "user" }, { role := "user" }, { role := "user" },
                       { role := "user" }]
        , lastUpdated := 0
        , memory := some { groupId := 1, summary := "OLD", lastCompressed := 0 } }
        { compressionThreshold := 2, maxMessages := 3
        , summaryResult := Except.ok "S", saveMemoryOk := true
        , saveContextOk := true, now := 9 }).2 = true ∧
      ((checkAndCompress
        { groupId := 1
        , messages := [{ role := "user" }, { role := "user" }, { role := "user" },
                       { role := "user" }]
        , lastUpdated := 0
        , memory := some { groupId := 1, summary := "OLD", lastCompressed := 0 } }
        { compressionThreshold := 2, maxMessages := 3
        , summaryResult := Except.ok "S", saveMemoryOk := true
        , saveContextOk := true, now := 9 }).1.messages.length : ℤ) =
        max 0 ((([{ role := "user" }, { role := "user" }, { role := "user" },
                   { role := "user" }] : List ChatMessage).length : ℤ) -
          ((jsSliceToNeg [{ role := "user" }, { role := "user" }, { role := "user" },
                          { role := "user" }] (3 / 3)).length : ℤ)) ∧
      ∃ mem2, (checkAndCompress
        { groupId := 1
        , messages := [{ role := "user" }, { role := "user" }, { role := "user" },
                       { role := "user" }]
        , lastUpdated := 0
        , memory := some { groupId := 1, summary := "OLD", lastCompressed := 0 } }
        { compressionThreshold := 2, maxMessages := 3
        , summaryResult := Except.ok "S", saveMemoryOk := true
        , saveContextOk := true, now := 9 }).1.memory = some mem2 ∧
        ∃ rest, mem2.summary =
          memorySummaryOf (some { groupId := 1, summary := "OLD", lastCompressed := 0 })
            ++ rest) :=
  C6_compress_roundtrip _ _ rfl rfl

theorem execToolsLoop_all_clear (env : LoopEnv) (tcs : List OpenAIToolCall) :
    ∀ (tms : List ChatMessage) (msgs : List OpenAIMessage) (tick : Nat),
      (∀ k, k < tcs.length → checkAbort env.abortAfter (tick + k) = false) →
      ∃ tms2 msgs2, execToolsLoop env tcs tms msgs tick =
        .inl (tms2, msgs2, tick + tcs.length) := by
  induction tcs with
  | nil =>
    intro tms msgs tick _
    exact ⟨tms, msgs, by simp [execToolsLoop]⟩
  | cons tc rest ih =>
    intro tms msgs tick h
    have h0 : checkAbort env.abortAfter tick = false := by
      have := h 0 (by simp)
      simpa using this
    have hrest : ∀ k, k < rest.length →
        checkAbort env.abortAfter (tick + 1 + k) = false := by
      intro k hk
      have := h (k + 1) (by simpa using Nat.succ_lt_succ hk)
      rwa [show tick + (k + 1) = tick + 1 + k by omega] at this
    obtain ⟨tms2, msgs2, heq⟩ := ih _ _ (tick + 1) hrest
    refine ⟨tms2, msgs2, ?_⟩
    rw [execToolsLoop, h0]
    simp only [Bool.false_eq_true, if_neg, not_false_iff]
    have hlen : tick + (tc :: rest).length = tick + 1 + rest.length := by
      rw [List.length_cons]
      omega
    rw [hlen, heq]

/-- C2 (amended): cancellation observed at the checkpoints the loop itself
polls (top of a round, before each tool execution, after the executions of a
round) makes handleToolCallsLoop return immediately with aborted = true,
empty final text and the transcript accumulated so far; cancellation
observed at the model call instead raises the interruption error.  The
caller treats an aborted result and the interruption error alike: it does
NOT persist the partial transcript (contrary to the frozen claim), sends no
reply, and its finally block still releases the scheduler lock, leaving the
group not deadlocked. -/
theorem C2_cancellation :
    (∀ (env : LoopEnv) (tc : List OpenAIToolCall) (script : List ModelResponse)
        (tms : List ChatMessage) (msgs : List OpenAIMessage) (tick : Nat),
        tc ≠ [] → checkAbort env.abortAfter tick = true →
        handleToolCallsLoop env tc script tms msgs tick = .result "" tms true) ∧
    (∀ (env : LoopEnv) (tc : OpenAIToolCall) (rest : List OpenAIToolCall)
        (tms : List ChatMessage) (msgs : List OpenAIMessage) (tick : Nat),
        checkAbort env.abortAfter tick = true →
        execToolsLoop env (tc :: rest) tms msgs tick = .inr tms) ∧
    (∀ (env : LoopEnv) (tcs : List OpenAIToolCall) (script : List ModelResponse)
        (tms : List ChatMessage) (msgs : List OpenAIMessage) (tick : Nat),
        tcs ≠ [] → env.abortAfter = some (tick + tcs.length + 2) →
        handleToolCallsLoop env tcs script tms msgs tick = .interrupted) ∧
    (∀ (content : String) (tms : List ChatMessage) (sa : Bool)
        (history : List ChatMessage) (gq : GroupQueueState) (now : Nat),
        processReplyPersist (.ok content tms true) sa history gq now =
          (history, none, (finishProcessing gq).1, (finishProcessing gq).2)) ∧
    (∀ (sa : Bool) (history : List ChatMessage) (gq : GroupQueueState) (now : Nat),
        processReplyPersist .interrupted sa history gq now =
          (history, none, (finishProcessing gq).1, (finishProcessing gq).2)) ∧
    (∀ gq : GroupQueueState, (finishProcessing gq).1.processing = false ∧
        (finishProcessing gq).1.currentUserId = none ∧
        (finishProcessing gq).1.abortController = none) := by
  refine ⟨?_, ?_, ?_, ?_, ?_, ?_⟩
  · intro env tc script tms msgs tick htc habort
    have hlen : ¬ tc.length = 0 := by
      simpa [List.length_eq_zero] using htc
    rw [handleToolCallsLoop]
    simp [hlen, habort]
  · intro env tc rest tms msgs tick habort
    rw [execToolsLoop, habort]
    simp
  · intro env tcs script tms msgs tick htc habort
    have hlen : ¬ tcs.length = 0 := by
      simpa [List.length_eq_zero] using htc
    have htop : checkAbort env.abortAfter tick = false := by
      simp [checkAbort, habort]
      omega
    have hclear : ∀ k, k < tcs.length →
        checkAbort env.abortAfter (tick + 1 + k) = false := by
      intro k hk
      simp [checkAbort, habort]
      omega
    obtain ⟨tms2, msgs2, hexec⟩ :=
      execToolsLoop_all_clear env tcs _ _ (tick + 1) hclear
    have hpost : checkAbort env.abortAfter (tick + 1 + tcs.length) = false := by
      simp [checkAbort, habort]
      omega
    have hentry : checkAbort env.abortAfter (tick + 1 + tcs.length + 1) = true := by
      simp [checkAbort, habort]
      omega
    rw [handleToolCallsLoop]
    simp only [hlen, if_neg, not_false_iff, htop, Bool.false_eq_true]
    rw [hexec]
    simp [hpost, hentry]
  · intro content tms sa history gq now
    simp [processReplyPersist]
  · intro sa history gq now
    simp [processReplyPersist]
  · exact finishProcessing_clears

/-- C2 witness: the top-of-round checkpoint with the signal already aborted,
evaluated concretely: the loop returns aborted with the transcript so far,
and the caller releases the lock without persisting or sending. -/
theorem C2_witness :
    handleToolCallsLoop
      { execTool := fun _ => "r", abortAfter := some 0, hasIntermediate := false
      , now := 0 }
      [{ id := "c1", name := "f", arguments := "" }] [] [] [] 0 =
      .result "" [] true ∧
    processReplyPersist (.ok "" [] true) false
      [{ role := "user", content := some "m" }] (startProcessing initialQueueState 4) 0 =
      ([{ role := "user", content := some "m" }], none,
        (finishProcessing (startProcessing initialQueueState 4)).1,
        (finishProcessing (startProcessing initialQueueState 4)).2) := by
  constructor
  · exact C2_cancellation.1 _ _ [] [] [] 0 (by simp) (by decide)
  · exact C2_cancellation.2.2.2.1 "" [] false _ _ 0

/-- C2 counterexample: a run whose cancellation is observed at the pre-tool
checkpoint returns aborted = true with a nonempty partial transcript (the
assistant tool-call turn), and the caller then persists none of it: the
durable history is returned unchanged, refuting that the partial transcript
is persisted on cancellation. -/
theorem C2_counterexample :
    handleToolCallsLoop
      { execTool := fun _ => "r", abortAfter := some 1, hasIntermediate := false
      , now := 0 }
      [{ id := "c1", name := "f", arguments := "" }] [] [] [] 0 =
      .result ""
        [{ role := "assistant", content := none
         , tool_calls := [{ id := "c1", name := "f", arguments := "" }]
         , timestamp := some 0 }] true ∧
    (processReplyPersist
      (.ok ""
        [{ role := "assistant", content := none
         , tool_calls := [{ id := "c1", name := "f", arguments := "" }]
         , timestamp := some 0 }] true)
      true [{ role := "user", content := some "m" }]
      (startProcessing initialQueueState 4) 0).1 =
      [{ role := "user", content := some "m" }] ∧
    [({ role := "assistant", content := none
      , tool_calls := [{ id := "c1", name := "f", arguments := "" }]
      , timestamp := some 0 } : ChatMessage)] ≠ [] := by
  refine ⟨?_, ?_, ?_⟩
  · rfl
  · rfl
  · simp

theorem atFilter_pos_iff (e : GroupMessageEvent) (selfId : Nat) :
    0 < (e.message.filter fun seg =>
      seg.type = "at" ∧ seg.dataQQ = some (toString selfId)).length ↔
    mentionsBot e selfId := by
  rw [← List.countP_eq_length_filter, List.countP_pos_iff]
  simp [mentionsBot]

theorem replyFilter_pos_iff (e : GroupMessageEvent) :
    0 < (e.message.filter fun seg => seg.type = "reply").length ↔ hasQuote e := by
  rw [← List.countP_eq_length_filter, List.countP_pos_iff]
  simp [hasQuote]

/-- C8 (amended): shouldReply is total and evaluated first-match-wins with no
combination of reasons.  A bot mention with reply-on-mention set yields
(true, "at") (the literal of the source for the mention rule, where the
frozen claim says "mention"); otherwise any quote segment with
reply-on-quote set yields (true, "quote"); otherwise a random draw below the
random-reply probability yields (true, "random"); otherwise (false, "none").
The draw is the Math.random() value, a rational with 0 <= rand. -/
theorem C8_shouldReply_order (e : GroupMessageEvent) (gs : GroupSettings)
    (selfId : Nat) (rand : ℚ) (h0 : 0 ≤ rand) :
    (mentionsBot e selfId → gs.mustReplyOnAt = true →
      shouldReply e gs selfId rand = (true, "at")) ∧
    (¬ (mentionsBot e selfId ∧ gs.mustReplyOnAt = true) → hasQuote e →
      gs.mustReplyOnQuote = true →
      shouldReply e gs selfId rand = (true, "quote")) ∧
    (¬ (mentionsBot e selfId ∧ gs.mustReplyOnAt = true) →
      ¬ (hasQuote e ∧ gs.mustReplyOnQuote = true) →
      rand < gs.randomReplyProbability →
      shouldReply e gs selfId rand = (true, "random")) ∧
    (¬ (mentionsBot e selfId ∧ gs.mustReplyOnAt = true) →
      ¬ (hasQuote e ∧ gs.mustReplyOnQuote = true) →
      ¬ rand < gs.randomReplyProbability →
      shouldReply e gs selfId rand = (false, "none")) := by
  refine ⟨?_, ?_, ?_, ?_⟩
  · intro hm hat
    simp only [shouldReply]
    rw [if_pos ⟨(atFilter_pos_iff e selfId).2 hm, hat⟩]
  · intro hnm hq hquote
    simp only [shouldReply]
    rw [if_neg fun hc => hnm ⟨(atFilter_pos_iff e selfId).1 hc.1, hc.2⟩]
    rw [if_pos ⟨(replyFilter_pos_iff e).2 hq, hquote⟩]
  · intro hnm hnq hr
    simp only [shouldReply]
    rw [if_neg fun hc => hnm ⟨(atFilter_pos_iff e selfId).1 hc.1, hc.2⟩]
    rw [if_neg fun hc => hnq ⟨(replyFilter_pos_iff e).1 hc.1, hc.2⟩]
    rw [if_pos ⟨lt_of_le_of_lt h0 hr, hr⟩]
  · intro hnm hnq hnr
    simp only [shouldReply]
    rw [if_neg fun hc => hnm ⟨(atFilter_pos_iff e selfId).1 hc.1, hc.2⟩]
    rw [if_neg fun hc => hnq ⟨(replyFilter_pos_iff e).1 hc.1, hc.2⟩]
    rw [if_neg fun hc => hnr hc.2]

/-- C8 witness: the mention rule evaluated at a concrete event and policy. -/
theorem C8_witness :
    shouldReply
      { message_id := 1, group_id := 1, user_id := 2
      , message := [{ type := "at", dataQQ := some "5" }] }
      { enabled := true, randomReplyProbability := 0, mustReplyOnAt := true
      , mustReplyOnQuote := false } 5 0 = (true, "at") :=
  (C8_shouldReply_order
    { message_id := 1, group_id := 1, user_id := 2
    , message := [{ type := "at", dataQQ := some "5" }] }
    { enabled := true, randomReplyProbability := 0, mustReplyOnAt := true
    , mustReplyOnQuote := false } 5 0 (by decide)).1 (by decide) rfl

/-- C8 counterexample: on a mention, the source returns the reason literal
"at", not "mention" as the frozen claim states. -/
theorem C8_counterexample :
    shouldReply
      { message_id := 1, group_id := 1, user_id := 2
      , message := [{ type := "at", dataQQ := some "5" }] }
      { enabled := true, randomReplyProbability := 0, mustReplyOnAt := true
      , mustReplyOnQuote := false } 5 0 = (true, "at") ∧
    shouldReply
      { message_id := 1, group_id := 1, user_id := 2
      , message := [{ type := "at", dataQQ := some "5" }] }
      { enabled := true, randomReplyProbability := 0, mustReplyOnAt := true
      , mustReplyOnQuote := false } 5 0 ≠ (true, "mention") := by
  constructor <;> decide

/-- C4: scheduleReply with no pending window creates one anchored on the
event with the given cooldown and returns true; with a window present it
appends the event to the observed list, returns false and leaves the
anchor, cooldown and timer untouched; a timer expiry on a live window
invokes the handler exactly once with the anchor event and the observed
list; over every operation sequence each window is invoked at most once, a
cancelled window is never invoked, and every invocation carries the
creating (first) event as anchor and exactly the events appended to that
window as the observed list. -/
theorem C4_aggregator :
    (∀ (s : AgState) (e : GroupMessageEvent) (cd : Nat),
        s.window = none →
        (scheduleReply s e cd).2 = true ∧
        (scheduleReply s e cd).1.window =
          some ({ triggerEvent := e, aggregatedEvents := [], cooldownMs := cd
                , processing := false }, s.counter)) ∧
    (∀ (s : AgState) (e : GroupMessageEvent) (cd : Nat) (p : PendingReply) (i : Nat),
        s.window = some (p, i) →
        (scheduleReply s e cd).2 = false ∧
        (scheduleReply s e cd).1.window =
          some ({ p with aggregatedEvents := p.aggregatedEvents ++ [e] }, i)) ∧
    (∀ (s : AgState) (p : PendingReply) (i : Nat),
        s.window = some (p, i) → p.processing = false →
        (agFire s).window = none ∧
        (agFire s).log =
          s.log ++ [AgAction.invoked i p.triggerEvent p.aggregatedEvents]) ∧
    (∀ (ops : List AgOp) (id : Nat), countInvoked (runAgOps ops).log id ≤ 1) ∧
    (∀ (ops : List AgOp) (id : Nat),
        1 ≤ countCancelled (runAgOps ops).log id →
        countInvoked (runAgOps ops).log id = 0) ∧
    (∀ (ops : List AgOp) (id : Nat) (a : GroupMessageEvent)
        (obs : List GroupMessageEvent),
        AgAction.invoked id a obs ∈ (runAgOps ops).log →
        AgAction.created id a ∈ (runAgOps ops).log ∧
        obs = appendsFor (runAgOps ops).log id) := by
  refine ⟨?_, ?_, ?_, ?_, ?_, ?_⟩
  · intro s e cd hw
    constructor <;> simp [scheduleReply, hw]
  · intro s e cd p i hw
    constructor <;> simp [scheduleReply, hw]
  · intro s p i hw hproc
    constructor <;> simp [agFire, hw, hproc]
  · intro ops id
    obtain ⟨_, _, h3, _⟩ := agInv_reachable ops
    have := h3 id
    omega
  · intro ops id hc
    obtain ⟨_, _, h3, _⟩ := agInv_reachable ops
    have := h3 id
    omega
  · intro ops id a obs hmem
    obtain ⟨_, _, _, h4⟩ := agInv_reachable ops
    exact h4 id a obs hmem

/-- C4 witness: the window creation clause and the at-most-once bound
evaluated on a concrete schedule-then-fire run. -/
theorem C4_witness :
    ((scheduleReply agInitial { message_id := 1, group_id := 2, user_id := 3 } 3000).2 =
      true ∧
     (scheduleReply agInitial { message_id := 1, group_id := 2, user_id := 3 } 3000).1.window =
      some ({ triggerEvent := { message_id := 1, group_id := 2, user_id := 3 }
            , aggregatedEvents := [], cooldownMs := 3000
            , processing := false }, agInitial.counter)) ∧
    countInvoked (runAgOps
      [AgOp.schedule { message_id := 1, group_id := 2, user_id := 3 } 3000,
       AgOp.fire]).log 0 ≤ 1 :=
  ⟨C4_aggregator.1 agInitial { message_id := 1, group_id := 2, user_id := 3 } 3000 rfl,
   C4_aggregator.2.2.2.1
     [AgOp.schedule { message_id := 1, group_id := 2, user_id := 3 } 3000,
      AgOp.fire] 0⟩

/-- C9 (amended): the normalization merges adjacent user turns and adjacent
assistant turns when the earlier assistant carries no tool calls (its output
contains no such adjacent pair; adjacent system turns are NOT merged,
contrary to the frozen claim); every tool turn kept answers a previously
requested, not yet consumed tool-call id (no orphan tool turns); and a
trailing assistant tool-call turn with unanswered calls is removed once.
The output can still contain an assistant tool-call turn with unanswered
calls (see the counterexample), so the frozen final clause is weakened to
orphan tool turns only. -/
theorem C9_normalize :
    (∀ msgs : List OpenAIMessage, NoOrphanTool (mergeConsecutiveMessages msgs)) ∧
    (∀ msgs : List OpenAIMessage,
        List.Chain' (fun a b => ¬ mergeablePair a b) (mergePass msgs)) ∧
    (∀ (valid : List OpenAIMessage) (pending : List String) (last : OpenAIMessage),
        0 < pending.length → valid.getLast? = some last →
        last.role = .assistant ∧ 0 < last.tool_calls.length →
        dropTrailingUnanswered valid pending = valid.dropLast) := by
  refine ⟨mergeConsecutiveMessages_noOrphan, mergePass_chain, ?_⟩
  intro valid pending last hp hl hpop
  exact dropTrailing_pop valid pending last hp hl hpop

/-- C9 witness: the trailing-drop clause evaluated on a concrete unanswered
assistant tool-call turn, and the no-orphan property on the empty history. -/
theorem C9_witness :
    NoOrphanTool (mergeConsecutiveMessages []) ∧
    dropTrailingUnanswered
      [{ role := .assistant, content := .null
       , tool_calls := [{ id := "a", name := "f", arguments := "" }] }] ["a"] = [] := by
  constructor
  · exact C9_normalize.1 []
  · have h := C9_normalize.2.2
      [{ role := .assistant, content := .null
       , tool_calls := [{ id := "a", name := "f", arguments := "" }] }] ["a"]
      { role := .assistant, content := .null
      , tool_calls := [{ id := "a", name := "f", arguments := "" }] }
      (by decide) rfl ⟨rfl, by decide⟩
    simpa using h

/-- C9 counterexample: adjacent same-role system turns are not merged, and
the normalized output can retain an assistant tool-call turn one of whose
calls is never answered (a partially answered round followed by a user
turn). -/
theorem C9_counterexample :
    mergeConsecutiveMessages
      [{ role := .system, content := .str "a" },
       { role := .system, content := .str "b" }] =
      [{ role := .system, content := .str "a" },
       { role := .system, content := .str "b" }] ∧
    hasUnansweredAssistant (mergeConsecutiveMessages
      [{ role := .assistant, content := .null
       , tool_calls := [{ id := "a", name := "f", arguments := "" },
                        { id := "b", name := "g", arguments := "" }] },
       { role := .tool, content := .str "ra", tool_call_id := some "a" },
       { role := .user, content := .str "hi" }]) = true := by
  constructor <;> decide

/-- C10 witness: evaluated at an empty final text with a nonempty tool
transcript. -/
theorem C10_witness :
    processReplyPersist
      (.ok "" [{ role := "tool", content := some "r", tool_call_id := some "c" }]
        false) false [] initialQueueState 3 =
      ([{ role := "tool", content := some "r", tool_call_id := some "c" }], none,
        (finishProcessing initialQueueState).1, (finishProcessing initialQueueState).2) := by
  have := C10_empty_reply ""
    [{ role := "tool", content := some "r", tool_call_id := some "c" }]
    [] initialQueueState 3 (by decide)
  simpa using this

end BlyrinBot
